import Mathlib

/-!
Shallow embedding of the semantic search and recommendation engine of the
React-AI-demo repository, together with proofs about the claims of its
specification.

Sources embedded here:
  - src/lib/embeddings.ts        (generateEmbeddingText, cosineSimilarity)
  - src/lib/recommender.ts       (recommendFiles)
  - src/app/api/search (multi-stage GET handler)
  - src/app/api/reindex/route.ts (POST database reindex loop)
  - src/lib/embeddingStorage.ts  (storeEmbeddingInDB validation gate)

Modelling conventions:
  - JavaScript numbers are modelled as exact rationals.  Math.sqrt is an
    external primitive and is threaded through as a function parameter
    (sqrt : Rat -> Rat); no theorem below depends on any property of sqrt.
  - The loosely typed per-item metadata bag (the info : any objects) is
    modelled by the JSON-like type JVal below, with JavaScript truthiness,
    strict equality and property access translated explicitly.  Undefined
    and null are folded into JVal.null (both are falsy, both throw on
    property access, and null === undefined is irrelevant to the code paths
    modelled here).
  - A JavaScript statement that can throw a TypeError is modelled in the
    Except monad; a try/catch block is modelled by the corresponding
    recovery on the Except value.
-/

/-- JSON-like runtime values, the model of the loosely typed metadata bags. -/
inductive JVal where
  | null : JVal
  | bool (b : Bool) : JVal
  | num (q : Rat) : JVal
  | str (s : String) : JVal
  | arr (xs : List JVal) : JVal
  | obj (kvs : List (String × JVal)) : JVal

namespace JVal

/-- JavaScript truthiness of a value (NaN is not modelled). -/
def truthy : JVal → Bool
  | .null => false
  | .bool b => b
  | .num q => q != 0
  | .str s => s != ""
  | .arr _ => true
  | .obj _ => true

/-- JavaScript strict equality.  Distinct array/object literals are distinct
references, so the arr/obj cases compare unequal (the embedded code never
compares a value against itself through two aliases). -/
def strictEq : JVal → JVal → Bool
  | .null, .null => true
  | .bool a, .bool b => a == b
  | .num a, .num b => a == b
  | .str a, .str b => a == b
  | _, _ => false

/-- Property read on a value that is known not to be null/undefined:
object lookup, and undefined (JVal.null) for missing keys or non-objects. -/
def get : JVal → String → JVal
  | .obj kvs, k =>
      match kvs.find? (fun kv => kv.1 == k) with
      | some kv => kv.2
      | none => .null
  | _, _ => .null

/-- Property read that throws a TypeError on null/undefined bases,
like a plain (not optional-chained) member access in JavaScript. -/
def getE : JVal → String → Except Unit JVal
  | .null, _ => .error ()
  | v, k => .ok (get v k)

/-- The JavaScript expression a || b. -/
def jsOr (a b : JVal) : JVal := if a.truthy then a else b

/-- Array.isArray. -/
def isArr : JVal → Bool
  | .arr _ => true
  | _ => false

/-- The element list of an array value (used after an Array.isArray guard). -/
def elems : JVal → List JVal
  | .arr xs => xs
  | _ => []

end JVal

/-! String helpers mirroring the JavaScript string primitives used by the
engine. -/

/-- Substring containment on character lists. -/
def charsInclude (needle : List Char) : List Char → Bool
  | [] => needle.isPrefixOf []
  | c :: rest => needle.isPrefixOf (c :: rest) || charsInclude needle rest

/-- String.prototype.includes (substring containment). -/
def jsIncludes (hay needle : String) : Bool :=
  charsInclude needle.data hay.data

/-- JavaScript String(v) as used by template literals and Array.join:
in a join, null/undefined elements render as the empty string. -/
def jElemStr : JVal → String
  | .null => ""
  | .bool b => if b then "true" else "false"
  | .num q => toString q
  | .str s => s
  | .arr xs => String.intercalate "," (xs.map fun v => match v with
      | .null => ""
      | .bool b => if b then "true" else "false"
      | .num q => toString q
      | .str s => s
      | .arr _ => ""
      | .obj _ => "[object Object]")
  | .obj _ => "[object Object]"

/-- JavaScript String(v) in a template literal (null renders as "null"). -/
def jToStr : JVal → String
  | .null => "null"
  | v => jElemStr v

/-- Array.prototype.join with a separator; throws a TypeError when the
receiver is not an array. -/
def jsJoinE (v : JVal) (sep : String) : Except Unit String :=
  match v with
  | .arr xs => .ok (String.intercalate sep (xs.map jElemStr))
  | _ => .error ()

/-- String.prototype.toLowerCase, throwing on non-string receivers. -/
def jsToLowerE : JVal → Except Unit String
  | .str s => .ok s.toLower
  | _ => .error ()

/-- JSON.stringify restricted to the values that occur here (no cycles,
no undefined at top level); string escaping is not reproduced, only the
shape of the output, which is never empty for object inputs. -/
def jsonStringify : JVal → String
  | .null => "null"
  | .bool b => if b then "true" else "false"
  | .num q => toString q
  | .str s => "\"" ++ s ++ "\""
  | .arr xs => "[" ++ String.intercalate "," (xs.map fun v => match v with
      | .null => "null"
      | .bool b => if b then "true" else "false"
      | .num q => toString q
      | .str s => "\"" ++ s ++ "\""
      | .arr _ => "[]"
      | .obj _ => "\x7b\x7d") ++ "]"
  | .obj kvs => "\x7b" ++ String.intercalate ","
      (kvs.map fun kv => "\"" ++ kv.1 ++ "\":" ++ match kv.2 with
        | .null => "null"
        | .bool b => if b then "true" else "false"
        | .num q => toString q
        | .str s => "\"" ++ s ++ "\""
        | .arr _ => "[]"
        | .obj _ => "\x7b\x7d") ++ "\x7d"

/-- JavaScript str.substring(0, n). -/
def jsSubstring (s : String) (n : Nat) : String := ⟨s.data.take n⟩

/-- JavaScript str.split on a whitespace run pattern: maximal non-blank
runs, with an empty token at the front or back when the string starts or
ends with whitespace, and a single empty token for the empty string. -/
def jsSplitWs (s : String) : List String :=
  if s = "" then [""]
  else
    let toks := (s.split Char.isWhitespace).filter (fun t => t ≠ "")
    let lead := match s.data with
      | c :: _ => c.isWhitespace
      | [] => false
    let trail := match s.data.getLast? with
      | some c => c.isWhitespace
      | none => false
    (if lead then [""] else []) ++ toks ++ (if trail then [""] else [])

/-- JavaScript new Set(list) iterated back into an array: the elements with
later duplicates removed (first occurrence kept). -/
def dedupFirst : List String → List String
  | [] => []
  | x :: xs => x :: dedupFirst (xs.filter (fun y => y ≠ x))
termination_by l => l.length
decreasing_by
  simp only [List.length_cons]
  exact Nat.lt_succ_of_le (List.length_filter_le _ _)

/-- JavaScript array.join(" ") on a list of strings. -/
def jsJoinSp : List String → String
  | [] => ""
  | [x] => x
  | x :: y :: xs => x ++ " " ++ jsJoinSp (y :: xs)

/-!
src/lib/embeddings.ts, generateEmbeddingText: combine the metadata fields of
one item into a single text blob.  Property access on a null/undefined bag
and Array.prototype.join on a non-array columns value throw, hence the
Except result; every other path is total.
-/

/-- generateEmbeddingText from src/lib/embeddings.ts. -/
def generateEmbeddingText (fileInfo : JVal) : Except Unit String := do
  match fileInfo with
  | .null => throw ()
  | fi =>
    let summary := fi.get "summary"
    let highlights := fi.get "highlights"
    let tags := fi.get "tags"
    let objects := fi.get "objects"
    let caption := fi.get "caption"
    let scene := fi.get "scene"
    let ty := fi.get "type"
    let columns := fi.get "columns"
    let stats := fi.get "stats"
    let p1 : List JVal := if summary.truthy then [summary] else []
    let p2 : List JVal :=
      if highlights.truthy && highlights.isArr then highlights.elems else []
    let p3 : List JVal := if tags.truthy && tags.isArr then tags.elems else []
    let p4 : List JVal :=
      if objects.truthy && objects.isArr then objects.elems else []
    let p5 : List JVal := if caption.truthy then [caption] else []
    let p6 : List JVal := if scene.truthy then [scene] else []
    let p7 : List JVal ←
      if JVal.strictEq ty (.str "csv") && columns.truthy then do
        let joined ← jsJoinE columns ", "
        pure [JVal.str ("Columns: " ++ joined)]
      else pure []
    let p8 : List JVal :=
      if JVal.strictEq ty (.str "csv") && stats.truthy then
        [JVal.str ("Statistics: " ++ jsonStringify stats)]
      else []
    let p9 : List JVal := if ty.truthy then [JVal.str ("File type: " ++ jToStr ty)] else []
    let parts := p1 ++ p2 ++ p3 ++ p4 ++ p5 ++ p6 ++ p7 ++ p8 ++ p9
    let embeddingText :=
      jsSubstring (jsJoinSp ((parts.filter JVal.truthy).map jElemStr)) 8000
    pure (if embeddingText = "" then "No content available" else embeddingText)

/-- cosineSimilarity from src/lib/embeddings.ts.  The elementwise loop over
equal-length vectors is rendered with zip/map/sum; Math.sqrt is the abstract
parameter sqrt. -/
def cosineSimilarity (sqrt : Rat → Rat) (vec1 vec2 : List Rat) : Rat :=
  if vec1.length ≠ vec2.length then 0
  else
    let dotProduct := ((vec1.zip vec2).map fun p => p.1 * p.2).sum
    let norm1 := (vec1.map fun x => x * x).sum
    let norm2 := (vec2.map fun x => x * x).sum
    let denominator := sqrt norm1 * sqrt norm2
    if denominator = 0 then 0 else dotProduct / denominator

/-!
Well-shaped content descriptors.  The loosely typed metadata bag of a
processed item, as produced by the upstream extractors, carries the fields
below; CItem is that well-shaped shape and CItem.toJ injects it into the
runtime value model.  A key whose field is absent maps to JVal.null, which
the embedded code cannot distinguish from a missing key (it only applies
truthiness and strict-equality tests to these values).
-/

structure CItem where
  type : Option String := none
  summary : Option String := none
  highlights : Option (List String) := none
  tags : Option (List String) := none
  objects : Option (List String) := none
  caption : Option String := none
  scene : Option String := none
  columns : Option (List String) := none
  stats : Option (List (String × Rat)) := none

/-- Absent field as a runtime value. -/
def optJ (o : Option String) : JVal :=
  match o with
  | some s => .str s
  | none => .null

/-- Absent or present list-of-strings field as a runtime value. -/
def optJL (o : Option (List String)) : JVal :=
  match o with
  | some l => .arr (l.map JVal.str)
  | none => .null

/-- Absent or present statistics field as a runtime value. -/
def optJStats (o : Option (List (String × Rat))) : JVal :=
  match o with
  | some kvs => .obj (kvs.map fun kv => (kv.1, .num kv.2))
  | none => .null

def CItem.toJ (it : CItem) : JVal :=
  .obj [("type", optJ it.type),
        ("summary", optJ it.summary),
        ("highlights", optJL it.highlights),
        ("tags", optJL it.tags),
        ("objects", optJL it.objects),
        ("caption", optJ it.caption),
        ("scene", optJ it.scene),
        ("columns", optJL it.columns),
        ("stats", optJStats it.stats)]

/-!
Multi-stage search engine, from the GET handler of the search route
(src/unnamed/part_005).  The handler reads well-shaped metadata records from
the store; SInfo is that shape (each access in the handler is through
optional chaining, so an absent field is simply a non-match).  External
effects appear as fields of SearchEnv: the query-embedding call, the three
store queries (each of which can fail, triggering the next stage), and the
local upload directory listing.
-/

/-- One element of a video scenes array: either a plain string or a record
with a description field. -/
inductive SceneJ where
  | strS (s : String)
  | recS (description : Option String)
deriving DecidableEq

/-- The expression typeof s === "string" ? s : s.description || "". -/
def SceneJ.desc : SceneJ → String
  | .strS s => s
  | .recS d => d.getD ""

structure SInfo where
  summary : Option String := none
  highlights : Option (List String) := none
  tags : Option (List String) := none
  objects : Option (List String) := none
  scene : Option String := none
  caption : Option String := none
  ocrText : Option String := none
  scenes : Option (List SceneJ) := none
  actions : Option (List String) := none
  columns : Option (List String) := none
  /-- The key set of the numericStats object (only its keys are searched). -/
  numericStats : Option (List String) := none
deriving DecidableEq

/-- A row of the files table: filename, metadata, optional stored vector. -/
structure DBFile where
  filename : String
  info : SInfo
  embedding : Option (List Rat) := none
deriving DecidableEq

/-- info?.field?.toLowerCase().includes(qLower) for a string field. -/
def optStrMatch (qLower : String) (o : Option String) : Bool :=
  match o with
  | some s => jsIncludes s.toLower qLower
  | none => false

/-- info?.field?.some(x => x.toLowerCase().includes(qLower)) for a
string-array field. -/
def optListMatch (qLower : String) (o : Option (List String)) : Bool :=
  match o with
  | some l => l.any fun s => jsIncludes s.toLower qLower
  | none => false

/-- The twelve per-field match booleans computed identically by all three
search stages. -/
structure MatchFlags where
  filenameMatch : Bool
  summaryMatch : Bool
  highlightsMatch : Bool
  tagsMatch : Bool
  objectsMatch : Bool
  sceneMatch : Bool
  captionMatch : Bool
  ocrMatch : Bool
  scenesMatch : Bool
  actionsMatch : Bool
  columnsMatch : Bool
  csvStatsMatch : Bool

def matchFlagsOf (qLower : String) (filename : String) (info : SInfo) : MatchFlags where
  filenameMatch := jsIncludes filename.toLower qLower
  summaryMatch := optStrMatch qLower info.summary
  highlightsMatch := optListMatch qLower info.highlights
  tagsMatch := optListMatch qLower info.tags
  objectsMatch := optListMatch qLower info.objects
  sceneMatch := optStrMatch qLower info.scene
  captionMatch := optStrMatch qLower info.caption
  ocrMatch := optStrMatch qLower info.ocrText
  scenesMatch :=
    match info.scenes with
    | some l => l.any fun s => jsIncludes s.desc.toLower qLower
    | none => false
  actionsMatch := optListMatch qLower info.actions
  columnsMatch := optListMatch qLower info.columns
  csvStatsMatch :=
    match info.numericStats with
    | some keys => keys.any fun k => jsIncludes k.toLower qLower
    | none => false

/-- The flags in the order the handler lists them for counting. -/
def MatchFlags.list (fl : MatchFlags) : List Bool :=
  [fl.filenameMatch, fl.summaryMatch, fl.highlightsMatch, fl.tagsMatch,
   fl.objectsMatch, fl.sceneMatch, fl.captionMatch, fl.ocrMatch,
   fl.scenesMatch, fl.actionsMatch, fl.columnsMatch, fl.csvStatsMatch]

/-- [ ... ].filter(Boolean).length. -/
def MatchFlags.count (fl : MatchFlags) : Nat := (fl.list.filter id).length

/-- The disjunction of all twelve flags. -/
def MatchFlags.hasMatch (fl : MatchFlags) : Bool := fl.list.any id

/-- The additive keyword bonuses of the vector stage. -/
def keywordBonus (fl : MatchFlags) : Rat :=
  (if fl.filenameMatch then (0.3 : Rat) else 0) +
  (if fl.summaryMatch then (0.2 : Rat) else 0) +
  (if fl.highlightsMatch then (0.15 : Rat) else 0) +
  (if fl.tagsMatch then (0.1 : Rat) else 0) +
  (if fl.objectsMatch then (0.15 : Rat) else 0) +
  (if fl.sceneMatch then (0.1 : Rat) else 0) +
  (if fl.captionMatch then (0.15 : Rat) else 0) +
  (if fl.ocrMatch then (0.1 : Rat) else 0) +
  (if fl.scenesMatch then (0.15 : Rat) else 0) +
  (if fl.actionsMatch then (0.15 : Rat) else 0) +
  (if fl.columnsMatch then (0.1 : Rat) else 0) +
  (if fl.csvStatsMatch then (0.1 : Rat) else 0)

structure SearchResult where
  filename : String
  info : SInfo
  similarity : Rat
  matchType : String
deriving DecidableEq

/-- Vector-stage scoring of one file row (the map body of stage 1): hybrid
score from cosine similarity plus keyword bonuses, kept when the score
clears 0.05 or any keyword matched. -/
def vectorStageItem (sqrt : Rat → Rat) (qLower : String) (qEmb : List Rat)
    (file : DBFile) : Option SearchResult :=
  let similarity : Rat :=
    match file.embedding with
    | some e => if e ≠ [] then cosineSimilarity sqrt qEmb e else 0
    | none => 0
  let fl := matchFlagsOf qLower file.filename file.info
  let score := similarity + keywordBonus fl
  if score > 0.05 || fl.hasMatch then
    some { filename := file.filename, info := file.info, similarity := score,
           matchType := if fl.hasMatch then "hybrid" else "vector" }
  else none

/-- Keyword-supplement scoring rule of stage 2 (base 0.4, 0.6 for
filename plus summary, 0.5 for filename alone, otherwise 0.4 plus 0.03
per matched category). -/
def keywordSupplementScore (fl : MatchFlags) : Rat :=
  if fl.filenameMatch && fl.summaryMatch then 0.6
  else if fl.filenameMatch then 0.5
  else if fl.count > 0 then 0.4 + (fl.count : Rat) * 0.03
  else 0.4

/-- Stage-2 scoring of one no-embedding row: kept only when some field
matched, always tagged keyword. -/
def supplementItem (qLower : String) (file : DBFile) : Option SearchResult :=
  let fl := matchFlagsOf qLower file.filename file.info
  if fl.hasMatch then
    some { filename := file.filename, info := file.info,
           similarity := keywordSupplementScore fl, matchType := "keyword" }
  else none

/-- Full keyword fallback scoring rule of stage 3 (base 0.5, 0.7 for
filename plus summary, 0.6 for filename alone, otherwise 0.5 plus 0.05
per matched category), used both in the store-backed fallback and the
local-directory fallback. -/
def keywordFallbackScore (fl : MatchFlags) : Rat :=
  if fl.filenameMatch && fl.summaryMatch then 0.7
  else if fl.filenameMatch then 0.6
  else if fl.count > 0 then 0.5 + (fl.count : Rat) * 0.05
  else 0.5

/-- Stage-3 scoring of one store row (every row is scored and tagged
keyword; the later filter keeps rows with positive score). -/
def fallbackDBItem (qLower : String) (file : DBFile) : SearchResult :=
  let fl := matchFlagsOf qLower file.filename file.info
  { filename := file.filename, info := file.info,
    similarity := keywordFallbackScore fl, matchType := "keyword" }

/-- sort((a, b) => b.similarity - a.similarity): a stable sort into
descending score order. -/
def sortByScoreDesc (l : List SearchResult) : List SearchResult :=
  l.insertionSort fun a b => b.similarity ≤ a.similarity

/-- Stage 1: score the rows holding an embedding, sort, truncate. -/
def vectorStage (sqrt : Rat → Rat) (qLower : String) (qEmb : List Rat)
    (files : List DBFile) (limit : Nat) : List SearchResult :=
  (sortByScoreDesc (files.filterMap (vectorStageItem sqrt qLower qEmb))).take limit

/-- allResults.filter((item, index, self) => index === self.findIndex(t =>
t != null && t.filename === item.filename)): keep the first occurrence of
every filename.  Rendered with an accumulator of the filenames already
kept. -/
def dedupAux (seen : List String) : List SearchResult → List SearchResult
  | [] => []
  | x :: xs =>
    if x.filename ∈ seen then dedupAux seen xs
    else x :: dedupAux (x.filename :: seen) xs

def dedupByFilename (l : List SearchResult) : List SearchResult := dedupAux [] l

/-- Stage-2 merge: concatenate stage-1 and keyword-only results,
deduplicate by filename (first occurrence wins), re-sort, re-truncate. -/
def mergeDedup (s1 s2 : List SearchResult) (limit : Nat) : List SearchResult :=
  (sortByScoreDesc (dedupByFilename (s1 ++ s2))).take limit

/-- The externals consumed by one run of the search handler. -/
structure SearchEnv where
  /-- url.searchParams.get("q"): absent parameter gives none. -/
  query : Option String
  limit : Nat
  /-- Result of generateEmbedding(query, provider, model); a thrown
  generation error is caught by the handler and behaves as none. -/
  queryEmbedding : Option (List Rat)
  /-- Whether supabaseServer() returned a client. -/
  dbConfigured : Bool
  /-- The rows with a non-null embedding column (stage 1 page), or a store
  query failure. -/
  dbFilesWithEmb : Except Unit (List DBFile)
  /-- The rows with a null embedding column (stage 2 page), or a failure. -/
  dbFilesNoEmb : Except Unit (List DBFile)
  /-- The unfiltered row page (stage 3), or a failure. -/
  dbAllFiles : Except Unit (List DBFile)
  localDirExists : Bool
  /-- Directory entries with their parsed .meta.json info (none when the
  metadata file is missing or unparsable, which the loop skips). -/
  localEntries : List (String × Option SInfo)

/-- The observable part of the JSON response: HTTP status, result list,
count, and the vectorSearch flag (absent on responses that do not set
it). -/
structure SearchResponse where
  status : Nat
  results : List SearchResult
  count : Nat
  vectorSearch : Option Bool
  error : Option String

/-- The 400 response of the query validation. -/
def badRequestResponse : SearchResponse :=
  { status := 400, results := [], count := 0, vectorSearch := none,
    error := some "Query parameter q is required" }

/-- The validation test !query || query.trim().length === 0 (a present but
empty query string is falsy and equally rejected). -/
def queryInvalid : Option String → Bool
  | none => true
  | some s => s.trim.length == 0

/-- Stage 1 with its nested stage-2 supplement, as the body of the
if (supabase and queryEmbedding.length > 0) block.  A some result is an
early return from the handler; none falls through to the next stage. -/
def stage1 (sqrt : Rat → Rat) (qLower : String) (limit : Nat) (qEmb : List Rat)
    (withEmb noEmb : Except Unit (List DBFile)) : Option SearchResponse :=
  match withEmb with
  | .error _ => none
  | .ok files =>
    if files.length > 0 then
      let allScoredFiles := vectorStage sqrt qLower qEmb files limit
      let supplemented : Option SearchResponse :=
        match noEmb with
        | .error _ => none
        | .ok files2 =>
          if files2.length > 0 then
            let keywordOnlyResults := files2.filterMap (supplementItem qLower)
            if keywordOnlyResults.length > 0 then
              let sortedResults := mergeDedup allScoredFiles keywordOnlyResults limit
              some { status := 200, results := sortedResults,
                     count := sortedResults.length, vectorSearch := some true,
                     error := none }
            else none
          else none
      match supplemented with
      | some r => some r
      | none =>
        some { status := 200, results := allScoredFiles,
               count := allScoredFiles.length, vectorSearch := some true,
               error := none }
    else none

/-- Stage 3 against the store: score every row, keep positive scores,
sort, truncate. -/
def stage3DB (qLower : String) (limit : Nat)
    (allFiles : Except Unit (List DBFile)) : Option SearchResponse :=
  match allFiles with
  | .error _ => none
  | .ok files =>
    if files.length > 0 then
      let scoredFiles :=
        (sortByScoreDesc ((files.map (fallbackDBItem qLower)).filter
          fun r => r.similarity > 0)).take limit
      some { status := 200, results := scoredFiles, count := scoredFiles.length,
             vectorSearch := some false, error := none }
    else none

/-- The local-directory keyword loop, with the early break once twice the
limit has accumulated. -/
def localLoop (qLower : String) (limit : Nat) :
    List (String × Option SInfo) → List SearchResult → List SearchResult
  | [], acc => acc
  | (name, inf) :: rest, acc =>
    if name.endsWith ".meta.json" then localLoop qLower limit rest acc
    else
      match inf with
      | none => localLoop qLower limit rest acc
      | some info =>
        let fl := matchFlagsOf qLower name info
        let acc2 :=
          if fl.hasMatch then
            acc ++ [{ filename := name, info := info,
                      similarity := keywordFallbackScore fl,
                      matchType := "keyword" }]
          else acc
        if acc2.length ≥ limit * 2 then acc2
        else localLoop qLower limit rest acc2

/-- The terminal local-directory fallback response. -/
def localStage (qLower : String) (limit : Nat)
    (entries : List (String × Option SInfo)) : SearchResponse :=
  let validResults := (sortByScoreDesc (localLoop qLower limit entries [])).take limit
  { status := 200, results := validResults, count := validResults.length,
    vectorSearch := some false, error := none }

/-- The GET handler of the search route: validation, then the three-stage
fallback ladder. -/
def searchGET (sqrt : Rat → Rat) (env : SearchEnv) : SearchResponse :=
  if queryInvalid env.query then badRequestResponse
  else
    let q := env.query.getD ""
    let qLower := q.toLower
    let r1 : Option SearchResponse :=
      if env.dbConfigured then
        match env.queryEmbedding with
        | some qEmb =>
          if qEmb.length > 0 then
            stage1 sqrt qLower env.limit qEmb env.dbFilesWithEmb env.dbFilesNoEmb
          else none
        | none => none
      else none
    match r1 with
    | some r => r
    | none =>
      let r2 :=
        if env.dbConfigured then stage3DB qLower env.limit env.dbAllFiles
        else none
      match r2 with
      | some r => r
      | none =>
        if ¬ env.localDirExists then
          { status := 200, results := [], count := 0, vectorSearch := none,
            error := none }
        else localStage qLower env.limit env.localEntries

/-!
Recommendation engine, from recommendFiles in src/lib/recommender.ts.

The per-candidate heuristic score is computed by a straight-line sequence of
score-accumulating statements over the two loosely typed metadata bags,
wrapped in one try/catch per candidate: a TypeError thrown by a statement
leaves the candidate with the score accumulated by the statements before
it.  Each statement is rendered below as one Except-valued delta
(scoreDeltas lists them in source order), and the catch as accumUntilFault:
the sum of the deltas up to the first faulting one.
-/

/-- Array.prototype.filter with a possibly throwing predicate (elements
examined left to right, the first throw aborts). -/
def listFilterE (p : JVal → Except Unit Bool) : List JVal → Except Unit (List JVal)
  | [] => .ok []
  | x :: xs => do
    let b ← p x
    let rest ← listFilterE p xs
    pure (if b then x :: rest else rest)

/-- Array.prototype.map with a possibly throwing body. -/
def listMapE (f : JVal → Except Unit JVal) : List JVal → Except Unit (List JVal)
  | [] => .ok []
  | x :: xs => do
    let y ← f x
    let rest ← listMapE f xs
    pure (y :: rest)

/-- Array.prototype.flatMap into string lists, with a possibly throwing
body. -/
def listFlatMapE (f : JVal → Except Unit (List String)) :
    List JVal → Except Unit (List String)
  | [] => .ok []
  | x :: xs => do
    let ys ← f x
    let rest ← listFlatMapE f xs
    pure (ys ++ rest)

/-- value.filter(...): throws a TypeError when the receiver is not an
array. -/
def jsFilterE (v : JVal) (p : JVal → Except Unit Bool) : Except Unit (List JVal) :=
  match v with
  | .arr xs => listFilterE p xs
  | _ => .error ()

/-- value.includes(a): array membership by strict equality, substring test
on strings, TypeError otherwise. -/
def jsIncludesMethodE (receiver a : JVal) : Except Unit Bool :=
  match receiver with
  | .arr xs => .ok (xs.any fun x => JVal.strictEq x a)
  | .str s => .ok (jsIncludes s (jToStr a))
  | _ => .error ()

/-- typeof s === "string" ? s : s.description || "" on an untyped scene
entry; throws on a null entry. -/
def sceneDescE (s : JVal) : Except Unit JVal :=
  match s with
  | .str _ => .ok s
  | .null => .error ()
  | v => .ok (JVal.jsOr (v.get "description") (.str ""))

/-- v.toLowerCase().split(whitespace).filter(w => w.length > minLen). -/
def wordsOfE (v : JVal) (minLen : Nat) : Except Unit (List String) := do
  let s ← jsToLowerE v
  pure ((jsSplitWs s).filter fun w => w.length > minLen)

/-- scenes.flatMap of the per-scene description words longer than three
characters; TypeError on a non-array receiver. -/
def jsFlatWordsE (v : JVal) : Except Unit (List String) :=
  match v with
  | .arr xs => listFlatMapE (fun s => do
      let d ← sceneDescE s
      wordsOfE d 3) xs
  | _ => .error ()

/-- highlights.flatMap(h => h.toLowerCase().split(whitespace)).filter(w =>
w.length > minLen); TypeError on a non-array receiver. -/
def jsFlatStrWordsE (v : JVal) (minLen : Nat) : Except Unit (List String) :=
  match v with
  | .arr xs => do
    let all ← listFlatMapE (fun h => do
      let hl ← jsToLowerE h
      pure (jsSplitWs hl)) xs
    pure (all.filter fun w => w.length > minLen)
  | _ => .error ()

/-- scenes.map(desc).join(" ").toLowerCase(); TypeError on a non-array
receiver. -/
def jsMapDescJoinLowerE (v : JVal) : Except Unit String :=
  match v with
  | .arr xs => do
    let ds ← listMapE sceneDescE xs
    pure (jsJoinSp (ds.map jElemStr)).toLower
  | _ => .error ()

/-- The number of elements shared by the two word sets: the JavaScript
pattern [...setA].filter(w => setB.has(w)).length. -/
def sharedWords (a b : List String) : List String :=
  (dedupFirst a).filter fun w => b.contains w

namespace Heur

open JVal

/-- Statement 1: same content type (+0.5). -/
def d1 (t f : JVal) : Except Unit Rat := do
  let ft ← f.getE "type"
  if ft.truthy then do
    let tt ← t.getE "type"
    pure (if strictEq ft tt then 0.5 else 0)
  else pure 0

/-- Guard of the cross-modal block: target is a pdf or text document. -/
def docTargetE (t : JVal) : Except Unit Bool := do
  let tt ← t.getE "type"
  pure (strictEq tt (.str "pdf") || strictEq tt (.str "text"))

/-- summaryWords of the cross-modal block: (targetInfo.summary ||
"").toLowerCase().split(whitespace). -/
def summaryWordsE (t : JVal) : Except Unit (List String) := do
  let tsum ← t.getE "summary"
  let sw ← jsToLowerE (jsOr tsum (.str ""))
  pure (jsSplitWs sw)

/-- Statement 2: document target, image candidate, +2 per object matching a
summary word. -/
def d2 (t f : JVal) : Except Unit Rat := do
  let doc ← docTargetE t
  if doc then do
    let ft ← f.getE "type"
    if strictEq ft (.str "image") then do
      let fobjs ← f.getE "objects"
      if fobjs.truthy then do
        let summaryWords ← summaryWordsE t
        let matching ← jsFilterE fobjs fun obj => do
          let ol ← jsToLowerE obj
          pure (summaryWords.any fun word => jsIncludes word ol || jsIncludes ol word)
        pure ((matching.length : Rat) * 2)
      else pure 0
    else pure 0
  else pure 0

/-- Statement 3: document target, video candidate, +1.5 per scene whose
description contains a summary word longer than three characters. -/
def d3 (t f : JVal) : Except Unit Rat := do
  let doc ← docTargetE t
  if doc then do
    let ft ← f.getE "type"
    if strictEq ft (.str "video") then do
      let summaryWords ← summaryWordsE t
      let fscenes ← f.getE "scenes"
      if fscenes.truthy && fscenes.isArr then do
        let matching ← listFilterE (fun s => do
          let d ← sceneDescE s
          let dl ← jsToLowerE d
          pure (summaryWords.any fun word => jsIncludes dl word && word.length > 3))
          fscenes.elems
        pure ((matching.length : Rat) * 1.5)
      else pure 0
    else pure 0
  else pure 0

/-- Statement 4: document target, video candidate, +1.5 per action
containing a summary word longer than three characters. -/
def d4 (t f : JVal) : Except Unit Rat := do
  let doc ← docTargetE t
  if doc then do
    let ft ← f.getE "type"
    if strictEq ft (.str "video") then do
      let summaryWords ← summaryWordsE t
      let facts ← f.getE "actions"
      if facts.truthy && facts.isArr then do
        let matching ← listFilterE (fun action => do
          let al ← jsToLowerE action
          pure (summaryWords.any fun word => jsIncludes al word && word.length > 3))
          facts.elems
        pure ((matching.length : Rat) * 1.5)
      else pure 0
    else pure 0
  else pure 0

/-- Statement 5: video-to-video, +1.5 per shared scene-description word. -/
def d5 (t f : JVal) : Except Unit Rat := do
  let tt ← t.getE "type"
  if strictEq tt (.str "video") then do
    let ft ← f.getE "type"
    if strictEq ft (.str "video") then do
      let tscenes ← t.getE "scenes"
      if tscenes.truthy then do
        let fscenes ← f.getE "scenes"
        if fscenes.truthy then do
          let tw ← jsFlatWordsE tscenes
          let fw ← jsFlatWordsE fscenes
          pure (((sharedWords tw fw).length : Rat) * 1.5)
        else pure 0
      else pure 0
    else pure 0
  else pure 0

/-- Statement 6: video-to-video, +2 per shared action. -/
def d6 (t f : JVal) : Except Unit Rat := do
  let tt ← t.getE "type"
  if strictEq tt (.str "video") then do
    let ft ← f.getE "type"
    if strictEq ft (.str "video") then do
      let tacts ← t.getE "actions"
      if tacts.truthy then do
        let facts ← f.getE "actions"
        if facts.truthy then do
          let shared ← jsFilterE tacts fun a => jsIncludesMethodE facts a
          pure ((shared.length : Rat) * 2)
        else pure 0
      else pure 0
    else pure 0
  else pure 0

/-- Statement 7: +1.5 per shared tag. -/
def d7 (t f : JVal) : Except Unit Rat := do
  let ftags ← f.getE "tags"
  if ftags.truthy then do
    let ttags ← t.getE "tags"
    if ttags.truthy then do
      let shared ← jsFilterE ftags fun tg => jsIncludesMethodE ttags tg
      pure ((shared.length : Rat) * 1.5)
    else pure 0
  else pure 0

/-- Statement 8: +2 per shared detected object. -/
def d8 (t f : JVal) : Except Unit Rat := do
  let fobjs ← f.getE "objects"
  if fobjs.truthy then do
    let tobjs ← t.getE "objects"
    if tobjs.truthy then do
      let shared ← jsFilterE fobjs fun o => jsIncludesMethodE tobjs o
      pure ((shared.length : Rat) * 2)
    else pure 0
  else pure 0

/-- The shared summary words of length above three, as computed by the main
summary block. -/
def summaryCommonE (t f : JVal) : Except Unit (Option (List String)) := do
  let fsum ← f.getE "summary"
  if fsum.truthy then do
    let tsum ← t.getE "summary"
    if tsum.truthy then do
      let tw ← wordsOfE tsum 3
      let fw ← wordsOfE fsum 3
      pure (some (sharedWords tw fw))
    else pure none
  else pure none

/-- Statement 9: +2 per shared summary word longer than three characters. -/
def d9 (t f : JVal) : Except Unit Rat := do
  let common ← summaryCommonE t f
  match common with
  | some ws => pure ((ws.length : Rat) * 2)
  | none => pure 0

/-- Statement 10: +2 bonus when at least three summary words are shared. -/
def d10 (t f : JVal) : Except Unit Rat := do
  let common ← summaryCommonE t f
  match common with
  | some ws => pure (if ws.length ≥ 3 then 2 else 0)
  | none => pure 0

/-- Statement 11: image-to-image, +3 per shared object. -/
def d11 (t f : JVal) : Except Unit Rat := do
  let tt ← t.getE "type"
  if strictEq tt (.str "image") then do
    let ft ← f.getE "type"
    if strictEq ft (.str "image") then do
      let tobjs ← t.getE "objects"
      if tobjs.truthy then do
        let fobjs ← f.getE "objects"
        if fobjs.truthy then do
          let shared ← jsFilterE tobjs fun o => jsIncludesMethodE fobjs o
          pure ((shared.length : Rat) * 3)
        else pure 0
      else pure 0
    else pure 0
  else pure 0

/-- Statement 12: image-to-image, +2 per shared scene word longer than
three characters. -/
def d12 (t f : JVal) : Except Unit Rat := do
  let tt ← t.getE "type"
  if strictEq tt (.str "image") then do
    let ft ← f.getE "type"
    if strictEq ft (.str "image") then do
      let tscene ← t.getE "scene"
      if tscene.truthy then do
        let fscene ← f.getE "scene"
        if fscene.truthy then do
          let tw ← wordsOfE tscene 3
          let fw ← wordsOfE fscene 3
          pure (((sharedWords tw fw).length : Rat) * 2)
        else pure 0
      else pure 0
    else pure 0
  else pure 0

/-- Statement 13: image-to-image, +1.5 per shared caption word longer than
three characters. -/
def d13 (t f : JVal) : Except Unit Rat := do
  let tt ← t.getE "type"
  if strictEq tt (.str "image") then do
    let ft ← f.getE "type"
    if strictEq ft (.str "image") then do
      let tcap ← t.getE "caption"
      if tcap.truthy then do
        let fcap ← f.getE "caption"
        if fcap.truthy then do
          let tw ← wordsOfE tcap 3
          let fw ← wordsOfE fcap 3
          pure (((sharedWords tw fw).length : Rat) * 1.5)
        else pure 0
      else pure 0
    else pure 0
  else pure 0

/-- The shared summary words of length above four of the pdf-to-pdf
block. -/
def pdfCommonE (t f : JVal) : Except Unit (Option (List String)) := do
  let tt ← t.getE "type"
  if strictEq tt (.str "pdf") then do
    let ft ← f.getE "type"
    if strictEq ft (.str "pdf") then do
      let tsum ← t.getE "summary"
      if tsum.truthy then do
        let fsum ← f.getE "summary"
        if fsum.truthy then do
          let tw ← wordsOfE tsum 4
          let fw ← wordsOfE fsum 4
          pure (some (sharedWords tw fw))
        else pure none
      else pure none
    else pure none
  else pure none

/-- Statement 14: pdf-to-pdf, +2.5 per shared summary word longer than four
characters. -/
def d14 (t f : JVal) : Except Unit Rat := do
  let common ← pdfCommonE t f
  match common with
  | some ws => pure ((ws.length : Rat) * 2.5)
  | none => pure 0

/-- Statement 15: pdf-to-pdf, +3 bonus when at least five such words are
shared. -/
def d15 (t f : JVal) : Except Unit Rat := do
  let common ← pdfCommonE t f
  match common with
  | some ws => pure (if ws.length ≥ 5 then 3 else 0)
  | none => pure 0

/-- Statement 16: pdf-to-pdf, +1.5 per shared highlight word longer than
four characters. -/
def d16 (t f : JVal) : Except Unit Rat := do
  let tt ← t.getE "type"
  if strictEq tt (.str "pdf") then do
    let ft ← f.getE "type"
    if strictEq ft (.str "pdf") then do
      let thl ← t.getE "highlights"
      if thl.truthy then do
        let fhl ← f.getE "highlights"
        if fhl.truthy then do
          let tw ← jsFlatStrWordsE thl 4
          let fw ← jsFlatStrWordsE fhl 4
          pure (((sharedWords tw fw).length : Rat) * 1.5)
        else pure 0
      else pure 0
    else pure 0
  else pure 0

/-- Statement 17: +2 when both scenes are present and strictly equal. -/
def d17 (t f : JVal) : Except Unit Rat := do
  let fs ← f.getE "scene"
  if fs.truthy then do
    let ts ← t.getE "scene"
    if ts.truthy then pure (if strictEq fs ts then 2 else 0)
    else pure 0
  else pure 0

/-- Statement 18: +0.5 per word shared by the joined scene descriptions. -/
def d18 (t f : JVal) : Except Unit Rat := do
  let tscenes ← t.getE "scenes"
  if tscenes.truthy then do
    let fscenes ← f.getE "scenes"
    if fscenes.truthy then do
      let td ← jsMapDescJoinLowerE tscenes
      let fd ← jsMapDescJoinLowerE fscenes
      let tw := (jsSplitWs td).filter fun w => w.length > 3
      let fw := (jsSplitWs fd).filter fun w => w.length > 3
      pure (((sharedWords tw fw).length : Rat) * 0.5)
    else pure 0
  else pure 0

/-- Statement 19: csv-to-csv, +1 per shared column name. -/
def d19 (t f : JVal) : Except Unit Rat := do
  let ft ← f.getE "type"
  if strictEq ft (.str "csv") then do
    let tt ← t.getE "type"
    if strictEq tt (.str "csv") then do
      let fcols ← f.getE "columns"
      if fcols.truthy then do
        let tcols ← t.getE "columns"
        if tcols.truthy then do
          let shared ← jsFilterE fcols fun c => jsIncludesMethodE tcols c
          pure ((shared.length : Rat))
        else pure 0
      else pure 0
    else pure 0
  else pure 0

/-- Statement 20: +0.3 per shared highlight word longer than three
characters. -/
def d20 (t f : JVal) : Except Unit Rat := do
  let fhl ← f.getE "highlights"
  if fhl.truthy then do
    let thl ← t.getE "highlights"
    if thl.truthy then do
      let tw ← jsFlatStrWordsE thl 3
      let fw ← jsFlatStrWordsE fhl 3
      pure (((sharedWords tw fw).length : Rat) * 0.3)
    else pure 0
  else pure 0

/-- Statement 21: +0.5 when the candidate is marked analyzed or
aiPowered. -/
def d21 (_t f : JVal) : Except Unit Rat := do
  let fst ← f.getE "status"
  if strictEq fst (.str "analyzed") then pure 0.5
  else do
    let ai ← f.getE "aiPowered"
    pure (if ai.truthy then 0.5 else 0)

end Heur

/-- The score-accumulating statements of the heuristic candidate loop, in
source order. -/
def scoreDeltas (t f : JVal) : List (Except Unit Rat) :=
  [Heur.d1 t f, Heur.d2 t f, Heur.d3 t f, Heur.d4 t f, Heur.d5 t f,
   Heur.d6 t f, Heur.d7 t f, Heur.d8 t f, Heur.d9 t f, Heur.d10 t f,
   Heur.d11 t f, Heur.d12 t f, Heur.d13 t f, Heur.d14 t f, Heur.d15 t f,
   Heur.d16 t f, Heur.d17 t f, Heur.d18 t f, Heur.d19 t f, Heur.d20 t f,
   Heur.d21 t f]

/-- The try/catch around the candidate scoring: the mutable score holds the
sum of the deltas accumulated before the first faulting statement. -/
def accumUntilFaultAux (acc : Rat) : List (Except Unit Rat) → Rat
  | [] => acc
  | .ok d :: rest => accumUntilFaultAux (acc + d) rest
  | .error _ :: _ => acc

/-- The heuristic score of one candidate against the target metadata. -/
def scoreCandidateJ (t f : JVal) : Rat := accumUntilFaultAux 0 (scoreDeltas t f)

/-- sort((a, b) => score(b) - score(a)) for the recommender lists: a stable
sort into descending score order. -/
def sortByKeyDesc {α : Type} (score : α → Rat) (l : List α) : List α :=
  l.insertionSort fun a b => score b ≤ score a

/-- An element of the files argument of recommendFiles. -/
structure RFile where
  filename : String
  info : JVal
  embedding : Option (List Rat) := none

/-- The optional target argument of recommendFiles. -/
structure RTarget where
  filename : Option String := none
  info : JVal := JVal.null
  embedding : Option (List Rat) := none

/-- An element of the returned recommendation list (filename and info are
the observable fields of the declared return type). -/
structure RecOut where
  filename : String
  info : JVal

/-- The vector-similarity scoring pass against a stored target embedding:
skip candidates without a non-empty embedding, skip dimension mismatches,
drop similarities at or below 0.15, sort descending, keep the top five. -/
def vectorScored (sqrt : Rat → Rat) (targetEmbedding : List Rat)
    (otherFiles : List RFile) : List (RFile × Rat) :=
  (sortByKeyDesc Prod.snd (otherFiles.filterMap fun f =>
    match f.embedding with
    | none => none
    | some e =>
      if e.length = 0 then none
      else if e.length ≠ targetEmbedding.length then none
      else
        let similarity := cosineSimilarity sqrt targetEmbedding e
        if similarity ≤ 0.15 then none
        else some (f, similarity))).take 5

/-- The vector-similarity scoring pass against a freshly generated target
embedding: keep only candidates that already hold an embedding of the same
dimension, score them, drop similarities at or below 0.15, sort, keep the
top five. -/
def genScored (sqrt : Rat → Rat) (generatedEmbedding : List Rat)
    (otherFiles : List RFile) : List (RFile × Rat) :=
  (sortByKeyDesc Prod.snd
    (((otherFiles.filter fun f =>
        match f.embedding with
        | none => false
        | some e => e.length ≠ 0 && e.length = generatedEmbedding.length).map
      fun f =>
        (f, cosineSimilarity sqrt generatedEmbedding (f.embedding.getD []))).filter
      fun item => ¬ (item.2 ≤ 0.15))).take 5

/-- The heuristic scoring pass: every candidate is scored by the guarded
statement sequence, candidates below 3.0 are dropped, the rest are sorted
descending and truncated to five. -/
def heuristicSorted (targetInfo : JVal) (otherFiles : List RFile) : List RFile :=
  let scores := otherFiles.map fun f => (f, scoreCandidateJ targetInfo f.info)
  ((sortByKeyDesc Prod.snd (scores.filter fun s => (3.0 : Rat) ≤ s.2)).map
    Prod.fst).take 5

/-- The candidate set: files.filter(f => f.filename !== target?.filename). -/
def otherFilesOf (files : List RFile) (target : Option RTarget) : List RFile :=
  files.filter fun f => ¬ (some f.filename = target.bind RTarget.filename)

/-- The shape returned to the caller: filename and info of a candidate. -/
def recOut (f : RFile) : RecOut := { filename := f.filename, info := f.info }

/-- recommendFiles from src/lib/recommender.ts.  genEmb is the outcome of
the awaited generateEmbedding call for the target text (null on provider
failure); sqrt is Math.sqrt.  The try around the vector path only has the
generateEmbeddingText call as a possible throw site in this model, and the
catch falls through to the heuristic pass. -/
def recommendFiles (sqrt : Rat → Rat) (files : List RFile)
    (target : Option RTarget) (useVectorSearch : Bool)
    (genEmb : Option (List Rat)) : List RecOut :=
  if files.length = 0 then []
  else
    let otherFiles := otherFilesOf files target
    if otherFiles.length = 0 then []
    else
      let vecResult : Option (List RecOut) :=
        match target with
        | none => none
        | some tgt =>
          if tgt.info.truthy && useVectorSearch then
            match tgt.embedding with
            | some targetEmbedding =>
              if targetEmbedding.length > 0 then
                let vs := vectorScored sqrt targetEmbedding otherFiles
                if vs.length > 0 then some (vs.map fun item => recOut item.1)
                else none
              else none
            | none =>
              match generateEmbeddingText tgt.info with
              | .error _ => none
              | .ok embeddingText =>
                if embeddingText ≠ "" && embeddingText ≠ "No content available" then
                  match genEmb with
                  | some generatedEmbedding =>
                    if generatedEmbedding.length > 0 then
                      let vs := genScored sqrt generatedEmbedding otherFiles
                      if vs.length > 0 then
                        some (vs.map fun item => recOut item.1)
                      else none
                    else none
                  | none => none
                else none
          else none
      match vecResult with
      | some r => r
      | none =>
        match target with
        | none => []
        | some tgt =>
          if tgt.info.truthy && otherFiles.length > 0 then
            (heuristicSorted tgt.info otherFiles).map recOut
          else []

/-!
Batch reindex, from the database loop of the POST handler in
src/app/api/reindex/route.ts, with the validated storage gate of
storeEmbeddingInDB (src/lib/embeddingStorage.ts).  The embedding provider
is the oracle gen (null return on provider failure) and the store update
outcome is the oracle writeOk.  The per-file try/catch surfaces a thrown
TypeError (from generateEmbeddingText on a malformed bag) as a status
error entry.  The non-array and non-finite checks of storeEmbeddingInDB
cannot fire on a list of rationals and are subsumed by the emptiness
check.
-/

/-- One entry of the results array (reason carries the reason field of
skipped/failed/storage-failed entries; a caught exception entry carries
none). -/
structure ReindexResult where
  filename : String
  status : String
  reason : Option String := none
deriving DecidableEq

/-- storeEmbeddingInDB: reject an empty vector, then report the store
update outcome. -/
def storeEmbeddingInDB (writeOk : String → Bool) (filename : String)
    (embedding : List Rat) : Bool :=
  if embedding.length = 0 then false
  else writeOk filename

/-- The body of the for loop over the database rows. -/
def reindexItem (gen : String → Option (List Rat)) (writeOk : String → Bool)
    (file : RFile) : ReindexResult :=
  let info := JVal.jsOr file.info (.obj [])
  match generateEmbeddingText info with
  | .error _ => { filename := file.filename, status := "error" }
  | .ok embeddingText =>
    if embeddingText = "" || embeddingText = "No content available" then
      { filename := file.filename, status := "skipped", reason := some "no_content" }
    else
      match gen embeddingText with
      | none =>
        { filename := file.filename, status := "failed",
          reason := some "embedding_generation_failed" }
      | some embedding =>
        if embedding.length = 0 then
          { filename := file.filename, status := "failed",
            reason := some "embedding_generation_failed" }
        else if storeEmbeddingInDB writeOk file.filename embedding then
          { filename := file.filename, status := "updated" }
        else
          { filename := file.filename, status := "error",
            reason := some "storage_failed" }

/-- The database reindex loop: one result entry per row. -/
def reindexDB (gen : String → Option (List Rat)) (writeOk : String → Bool)
    (files : List RFile) : List ReindexResult :=
  files.map (reindexItem gen writeOk)

/-!
Statement-level derived definitions: the string parts a well-shaped
descriptor contributes to its embedding text (read off the source function
field by field), and the blank-query predicate of the search API.
-/

/-- The contribution of an optional plain-string field after the
filter(Boolean) pass. -/
def optStrPart (o : Option String) : List String :=
  match o with
  | some s => if s = "" then [] else [s]
  | none => []

/-- The contribution of an optional string-list field after the
filter(Boolean) pass. -/
def optListPart (o : Option (List String)) : List String :=
  match o with
  | some l => l.filter fun s => s ≠ ""
  | none => []

/-- The Columns part (only for csv items with a columns field). -/
def csvColsPart (ty : Option String) (cols : Option (List String)) : List String :=
  match ty, cols with
  | some t, some cs =>
    if t = "csv" then ["Columns: " ++ String.intercalate ", " cs] else []
  | _, _ => []

/-- The Statistics part (only for csv items with a stats field). -/
def csvStatsPart (ty : Option String) (stats : Option (List (String × Rat))) :
    List String :=
  match ty, stats with
  | some t, some kvs =>
    if t = "csv" then ["Statistics: " ++ jsonStringify (optJStats (some kvs))]
    else []
  | _, _ => []

/-- The trailing file-type part. -/
def typePart (ty : Option String) : List String :=
  match ty with
  | some t => if t = "" then [] else ["File type: " ++ t]
  | none => []

/-- The non-blank string parts of a well-shaped descriptor, in the order
generateEmbeddingText concatenates them. -/
def cItemParts (it : CItem) : List String :=
  optStrPart it.summary ++ optListPart it.highlights ++ optListPart it.tags ++
  optListPart it.objects ++ optStrPart it.caption ++ optStrPart it.scene ++
  csvColsPart it.type it.columns ++ csvStatsPart it.type it.stats ++
  typePart it.type

/-- The embedding text of a well-shaped descriptor before the sentinel
substitution. -/
def cItemText (it : CItem) : String :=
  jsSubstring (jsJoinSp (cItemParts it)) 8000

/-- A query parameter that the search API must reject: absent, or blank
after trimming. -/
def IsBlankQuery (q : Option String) : Prop :=
  ∀ s, q = some s → s.trim = ""

/-!
Concrete example inputs used by the witness theorems: a video target and a
video candidate with overlapping scene words, where the candidate carries a
malformed tags field (a number), so that the tag-sharing statement of the
heuristic scorer throws after 3.5 points have accumulated.
-/

def exTargetInfo : JVal :=
  .obj [("type", .str "video"), ("scenes", .arr [.str "sunset beach waves"]),
        ("tags", .str "x")]

def exFileInfo : JVal :=
  .obj [("type", .str "video"), ("scenes", .arr [.str "beach waves crashing"]),
        ("tags", .num 5)]

def exFile : RFile := { filename := "b.mp4", info := exFileInfo }

def exTarget : RTarget := { filename := some "a.mp4", info := exTargetInfo }

/-! Generic facts about the descending-score sorts used by both engines. -/

theorem mem_sortByKeyDesc {α : Type} (score : α → Rat) (l : List α) (a : α) :
    a ∈ sortByKeyDesc score l ↔ a ∈ l :=
  List.mem_insertionSort _

theorem sorted_sortByKeyDesc {α : Type} (score : α → Rat) (l : List α) :
    (sortByKeyDesc score l).Sorted fun a b => score b ≤ score a := by
  haveI : IsTotal α fun a b => score b ≤ score a :=
    ⟨fun a b => le_total (score b) (score a)⟩
  haveI : IsTrans α fun a b => score b ≤ score a :=
    ⟨fun _ _ _ hab hbc => le_trans hbc hab⟩
  exact List.sorted_insertionSort _ _

theorem perm_sortByKeyDesc {α : Type} (score : α → Rat) (l : List α) :
    List.Perm (sortByKeyDesc score l) l :=
  List.perm_insertionSort _ _

theorem sortByScoreDesc_eq (l : List SearchResult) :
    sortByScoreDesc l = sortByKeyDesc (fun r => r.similarity) l := rfl

/-- C5: for every pair of vectors of different lengths, cosineSimilarity
returns 0 through its early dimension check, without elementwise
computation; the function is total, so no exception can propagate. -/
theorem c5_cosine_dim_mismatch (sqrt : Rat → Rat) (a b : List Rat)
    (h : a.length ≠ b.length) : cosineSimilarity sqrt a b = 0 := by
  simp [cosineSimilarity, h]

/-- Witness for C5 at the concrete pair [1] and [1, 2]. -/
theorem c5_witness :
    ([(1 : Rat)].length ≠ [(1 : Rat), 2].length) ∧
      cosineSimilarity id [(1 : Rat)] [(1 : Rat), 2] = 0 :=
  ⟨by decide, c5_cosine_dim_mismatch id [(1 : Rat)] [(1 : Rat), 2] (by decide)⟩

/-- C2 counterexample: an item whose summary alone matches the query is
scored 0.43 by the keyword-supplement rule but 0.55 by the full fallback
rule, so the two stages do not score by the same rule. -/
theorem c2_counterexample :
    (supplementItem "b" { filename := "x.pdf", info := { summary := some "b plan" } }).map
        (fun r => r.similarity) = some (43 / 100 : Rat) ∧
      (fallbackDBItem "b" { filename := "x.pdf", info := { summary := some "b plan" } }).similarity =
        (11 / 20 : Rat) ∧
      ¬ ((43 / 100 : Rat) = (11 / 20 : Rat)) := by
  refine ⟨by with_unfolding_all decide, by with_unfolding_all decide,
    by with_unfolding_all decide⟩

/-- C2 amended: on any matching item the full-fallback stage uses the same
branching shape but with base 0.5, 0.05 per category, 0.6 and 0.7 for the
filename cases; its score exceeds the supplement-stage score by exactly 0.1
in the filename branches and by 0.1 plus 0.02 per matched category
otherwise. -/
theorem c2_amended (fl : MatchFlags) (h : fl.hasMatch = true) :
    keywordFallbackScore fl =
      keywordSupplementScore fl +
        (if fl.filenameMatch then (1 / 10 : Rat)
         else (1 / 10 : Rat) + (fl.count : Rat) * (1 / 50)) := by
  have hcount : 0 < fl.count := by
    rcases List.any_eq_true.mp h with ⟨b, hb, hbtrue⟩
    have : b ∈ fl.list.filter id := List.mem_filter.mpr ⟨hb, hbtrue⟩
    have := List.length_pos.mpr (List.ne_nil_of_mem this)
    exact this
  by_cases hf : fl.filenameMatch
  · by_cases hs : fl.summaryMatch
    · norm_num [keywordFallbackScore, keywordSupplementScore, hf, hs]
    · norm_num [keywordFallbackScore, keywordSupplementScore, hf, hs]
  · norm_num [keywordFallbackScore, keywordSupplementScore, hf, hcount]
    ring

/-- Witness for C2 amended at a flags record with only a summary match. -/
theorem c2_amended_witness :
    (MatchFlags.hasMatch ⟨false, true, false, false, false, false, false,
        false, false, false, false, false⟩ = true) ∧
      keywordFallbackScore ⟨false, true, false, false, false, false, false,
          false, false, false, false, false⟩ =
        keywordSupplementScore ⟨false, true, false, false, false, false, false,
            false, false, false, false, false⟩ +
          (if (⟨false, true, false, false, false, false, false, false, false,
              false, false, false⟩ : MatchFlags).filenameMatch then (1 / 10 : Rat)
           else (1 / 10 : Rat) +
             ((⟨false, true, false, false, false, false, false, false, false,
                 false, false, false⟩ : MatchFlags).count : Rat) * (1 / 50)) :=
  ⟨by decide, c2_amended _ (by decide)⟩

/-- C4 amended: in the vector stage, a kept result is tagged hybrid exactly
when some keyword matched, regardless of whether the vector similarity was
positive, and vector otherwise; every keyword-supplement result is tagged
keyword. -/
theorem c4_amended :
    (∀ (sqrt : Rat → Rat) (qLower : String) (qEmb : List Rat) (file : DBFile)
        (r : SearchResult), vectorStageItem sqrt qLower qEmb file = some r →
        ((r.matchType = "hybrid" ↔
            (matchFlagsOf qLower file.filename file.info).hasMatch = true) ∧
          (r.matchType = "vector" ↔
            (matchFlagsOf qLower file.filename file.info).hasMatch = false))) ∧
      ∀ (qLower : String) (file : DBFile) (r : SearchResult),
        supplementItem qLower file = some r → r.matchType = "keyword" := by
  constructor
  · intro sqrt qLower qEmb file r h
    rw [vectorStageItem] at h
    split at h
    · obtain rfl := (Option.some.inj h).symm
      by_cases hm : (matchFlagsOf qLower file.filename file.info).hasMatch
      · simp [hm]
      · simp [hm, Bool.eq_false_iff.mpr hm]
    · exact absurd h (by simp)
  · intro qLower file r h
    rw [supplementItem] at h
    split at h
    · obtain rfl := (Option.some.inj h).symm
      rfl
    · exact absurd h (by simp)

/-- C4 counterexample: a vector-stage result whose similarity contribution
is zero (orthogonal embeddings) but whose filename matches the query is
tagged hybrid, not keyword, contradicting the claimed classification. -/
theorem c4_counterexample :
    cosineSimilarity id [(1 : Rat), 0] [(0 : Rat), 1] = 0 ∧
      (matchFlagsOf "a" "a.txt" {}).hasMatch = true ∧
      (vectorStageItem id "a" [(1 : Rat), 0]
          { filename := "a.txt", info := {}, embedding := some [(0 : Rat), 1] }).map
        (fun r => r.matchType) = some "hybrid" ∧
      ¬ (some "hybrid" = some ("keyword" : String)) := by
  refine ⟨by with_unfolding_all decide, by with_unfolding_all decide,
    by with_unfolding_all decide, by decide⟩

/-- Witness for C4 amended at a concrete kept vector-stage result. -/
theorem c4_witness :
    (vectorStageItem id "a" [(1 : Rat), 0]
        { filename := "a.txt", info := {}, embedding := some [(0 : Rat), 1] } =
      some (⟨"a.txt", {}, 3 / 10, "hybrid"⟩ : SearchResult)) ∧
      ((⟨"a.txt", {}, 3 / 10, "hybrid"⟩ : SearchResult).matchType = "hybrid" ↔
        (matchFlagsOf "a" "a.txt" {}).hasMatch = true) := by
  have h : vectorStageItem id "a" [(1 : Rat), 0]
      { filename := "a.txt", info := {}, embedding := some [(0 : Rat), 1] } =
      some (⟨"a.txt", {}, 3 / 10, "hybrid"⟩ : SearchResult) := by
    with_unfolding_all decide
  exact ⟨h, (c4_amended.1 id "a" [(1 : Rat), 0] _ _ h).1⟩

/-! Facts about the filename deduplication of the stage-2 merge. -/

theorem mem_dedupAux {seen : List String} {l : List SearchResult}
    {r : SearchResult} (h : r ∈ dedupAux seen l) :
    r.filename ∉ seen ∧ l.find? (fun t => t.filename == r.filename) = some r := by
  induction l generalizing seen with
  | nil =>
    rw [show dedupAux seen [] = [] from rfl] at h
    exact absurd h (List.not_mem_nil r)
  | cons x xs ih =>
    by_cases hx : x.filename ∈ seen
    · rw [show dedupAux seen (x :: xs) =
          (if x.filename ∈ seen then dedupAux seen xs
           else x :: dedupAux (x.filename :: seen) xs) from rfl, if_pos hx] at h
      obtain ⟨h1, h2⟩ := ih h
      refine ⟨h1, ?_⟩
      rw [List.find?_cons_of_neg, h2]
      simp only [beq_iff_eq]
      intro he
      exact h1 (he ▸ hx)
    · rw [show dedupAux seen (x :: xs) =
          (if x.filename ∈ seen then dedupAux seen xs
           else x :: dedupAux (x.filename :: seen) xs) from rfl, if_neg hx] at h
      rcases List.mem_cons.mp h with rfl | hmem
      · exact ⟨hx, by rw [List.find?_cons_of_pos] <;> simp⟩
      · obtain ⟨h1, h2⟩ := ih hmem
        have hne : r.filename ≠ x.filename := by
          intro he
          exact h1 (by rw [he]; exact List.mem_cons_self _ _)
        refine ⟨fun hs => h1 (List.mem_cons_of_mem _ hs), ?_⟩
        rw [List.find?_cons_of_neg, h2]
        simp only [beq_iff_eq]
        exact fun he => hne he.symm

theorem pairwise_dedupAux (seen : List String) (l : List SearchResult) :
    (dedupAux seen l).Pairwise fun a b => a.filename ≠ b.filename := by
  induction l generalizing seen with
  | nil => exact List.Pairwise.nil
  | cons x xs ih =>
    by_cases hx : x.filename ∈ seen
    · rw [show dedupAux seen (x :: xs) =
          (if x.filename ∈ seen then dedupAux seen xs
           else x :: dedupAux (x.filename :: seen) xs) from rfl, if_pos hx]
      exact ih seen
    · rw [show dedupAux seen (x :: xs) =
          (if x.filename ∈ seen then dedupAux seen xs
           else x :: dedupAux (x.filename :: seen) xs) from rfl, if_neg hx]
      refine List.Pairwise.cons ?_ (ih _)
      intro b hb
      have := (mem_dedupAux hb).1
      intro he
      exact this (by rw [← he]; exact List.mem_cons_self _ _)

/-- C6: the merged output of stages 1 and 2 carries no filename twice, the
survivor of each filename is the first occurrence in the stage-1 then
stage-2 concatenation (so a stage-1 entry wins), and the merge is re-sorted
by score descending and truncated to the limit. -/
theorem c6_merge_dedup (s1 s2 : List SearchResult) (limit : Nat) :
    (mergeDedup s1 s2 limit).Pairwise (fun a b => a.filename ≠ b.filename) ∧
      (mergeDedup s1 s2 limit).Sorted (fun a b => b.similarity ≤ a.similarity) ∧
      (mergeDedup s1 s2 limit).length ≤ limit ∧
      ∀ r ∈ mergeDedup s1 s2 limit,
        (s1 ++ s2).find? (fun t => t.filename == r.filename) = some r := by
  have hperm := perm_sortByKeyDesc (fun r : SearchResult => r.similarity)
    (dedupByFilename (s1 ++ s2))
  have hsub : List.Sublist (mergeDedup s1 s2 limit)
      (sortByScoreDesc (dedupByFilename (s1 ++ s2))) := List.take_sublist _ _
  refine ⟨?_, ?_, ?_, ?_⟩
  · refine List.Pairwise.sublist hsub ?_
    rw [sortByScoreDesc_eq]
    refine (List.Perm.pairwise_iff ?_ hperm).mpr (pairwise_dedupAux [] (s1 ++ s2))
    intro a b hab he
    exact hab he.symm
  · refine List.Pairwise.sublist hsub ?_
    rw [sortByScoreDesc_eq]
    exact sorted_sortByKeyDesc _ _
  · exact List.length_take_le _ _
  · intro r hr
    have hr2 : r ∈ sortByScoreDesc (dedupByFilename (s1 ++ s2)) := hsub.subset hr
    rw [sortByScoreDesc_eq] at hr2
    have hr3 : r ∈ dedupByFilename (s1 ++ s2) := (mem_sortByKeyDesc _ _ _).mp hr2
    exact (mem_dedupAux hr3).2

/-- Witness for C6 at a concrete merge of a stage-1 entry and a stage-2
entry sharing a filename: the stage-1 entry is the surviving first
occurrence. -/
theorem c6_witness :
    (([⟨"a.txt", {}, 1, "vector"⟩] ++
        [⟨"a.txt", {}, (1 : Rat) / 2, "keyword"⟩]) :
          List SearchResult).find?
        (fun t => t.filename == SearchResult.filename ⟨"a.txt", {}, 1, "vector"⟩) =
      some ⟨"a.txt", {}, 1, "vector"⟩ :=
  (c6_merge_dedup [⟨"a.txt", {}, 1, "vector"⟩]
      [⟨"a.txt", {}, (1 : Rat) / 2, "keyword"⟩] 10).2.2.2
    ⟨"a.txt", {}, 1, "vector"⟩ (by with_unfolding_all decide)

/-! Facts about the search handler statuses. -/

theorem stage1_status {sqrt : Rat → Rat} {qLower : String} {limit : Nat}
    {qEmb : List Rat} {we ne : Except Unit (List DBFile)} {r : SearchResponse}
    (h : stage1 sqrt qLower limit qEmb we ne = some r) : r.status = 200 := by
  unfold stage1 at h
  dsimp only at h
  repeat' split at h
  all_goals try exact Option.noConfusion h
  all_goals try (obtain rfl := Option.some.inj h; rfl)
  all_goals obtain rfl := Option.some.inj h
  all_goals rename_i heq
  all_goals repeat' split at heq
  all_goals
    first
      | exact Option.noConfusion heq
      | (obtain rfl := Option.some.inj heq; rfl)

theorem stage3DB_status {qLower : String} {limit : Nat}
    {allFiles : Except Unit (List DBFile)} {r : SearchResponse}
    (h : stage3DB qLower limit allFiles = some r) : r.status = 200 := by
  unfold stage3DB at h
  dsimp only at h
  repeat' split at h
  all_goals first
    | exact Option.noConfusion h
    | (obtain rfl := Option.some.inj h; rfl)

theorem searchGET_status_of_valid {sqrt : Rat → Rat} {env : SearchEnv}
    (h : queryInvalid env.query = false) : (searchGET sqrt env).status = 200 := by
  unfold searchGET
  rw [if_neg (by simp [h])]
  dsimp only
  split
  · rename_i r1 heq
    repeat' split at heq
    all_goals first
      | exact Option.noConfusion heq
      | exact stage1_status heq
  · split
    · rename_i r2 heq
      repeat' split at heq
      all_goals first
        | exact Option.noConfusion heq
        | exact stage3DB_status heq
    · split
      · rfl
      · rfl

theorem queryInvalid_iff (q : Option String) :
    queryInvalid q = true ↔ IsBlankQuery q := by
  cases q with
  | none => simp [queryInvalid, IsBlankQuery]
  | some s =>
    simp only [queryInvalid, IsBlankQuery, beq_iff_eq, Option.some.injEq]
    constructor
    · intro h t ht
      subst ht
      exact String.ext (by simpa [String.length] using List.length_eq_zero.mp h)
    · intro h
      simp [h s rfl]

/-- C9: the search endpoint answers 400 exactly on an absent or blank
query, and on such a query it returns the fixed bad-request response
without consulting the embedding provider, the store or the local
directory (the response is the same constant whatever those hold);
every other request is answered with status 200, never another client
error. -/
theorem c9_blank_query (sqrt : Rat → Rat) (env : SearchEnv) :
    ((searchGET sqrt env).status = 400 ↔ IsBlankQuery env.query) ∧
      (IsBlankQuery env.query → searchGET sqrt env = badRequestResponse) := by
  have hval : ∀ h : queryInvalid env.query = true,
      searchGET sqrt env = badRequestResponse := by
    intro h
    unfold searchGET
    rw [if_pos h]
  constructor
  · constructor
    · intro h400
      by_cases hq : queryInvalid env.query
      · exact (queryInvalid_iff _).mp hq
      · exact absurd ((searchGET_status_of_valid (Bool.eq_false_iff.mpr hq)).symm.trans h400)
          (by decide)
    · intro hb
      rw [hval ((queryInvalid_iff _).mpr hb)]
      rfl
  · intro hb
    exact hval ((queryInvalid_iff _).mpr hb)

/-- Witness for C9 at a blank query over a fully populated environment. -/
theorem c9_witness :
    IsBlankQuery (some "  ") ∧
      searchGET id
          { query := some "  ", limit := 10, queryEmbedding := some [1],
            dbConfigured := true, dbFilesWithEmb := .ok [],
            dbFilesNoEmb := .ok [], dbAllFiles := .ok [],
            localDirExists := true, localEntries := [] } =
        badRequestResponse := by
  have hb : IsBlankQuery (some "  ") := by
    intro s hs
    cases hs
    with_unfolding_all decide
  exact ⟨hb, (c9_blank_query id _).2 hb⟩

/-! Facts about the recommender stages. -/

theorem mem_vectorScored {sqrt : Rat → Rat} {tEmb : List Rat}
    {others : List RFile} {x : RFile × Rat} (h : x ∈ vectorScored sqrt tEmb others) :
    x.1 ∈ others ∧ ∃ e, x.1.embedding = some e ∧
      x.2 = cosineSimilarity sqrt tEmb e ∧ (0.15 : Rat) < x.2 := by
  unfold vectorScored at h
  have h1 := (mem_sortByKeyDesc _ _ _).mp ((List.take_sublist _ _).subset h)
  obtain ⟨f, hf, hfx⟩ := List.mem_filterMap.mp h1
  cases hemb : f.embedding with
  | none => rw [hemb] at hfx; exact Option.noConfusion hfx
  | some e =>
    rw [hemb] at hfx
    dsimp only at hfx
    repeat' split at hfx
    any_goals exact Option.noConfusion hfx
    rename_i hlen hdim hsim
    obtain rfl := Option.some.inj hfx
    exact ⟨hf, e, hemb, rfl, lt_of_not_le hsim⟩

theorem mem_genScored {sqrt : Rat → Rat} {g : List Rat}
    {others : List RFile} {x : RFile × Rat} (h : x ∈ genScored sqrt g others) :
    x.1 ∈ others ∧ ∃ e, x.1.embedding = some e ∧
      x.2 = cosineSimilarity sqrt g e ∧ (0.15 : Rat) < x.2 := by
  unfold genScored at h
  have h1 := (mem_sortByKeyDesc _ _ _).mp ((List.take_sublist _ _).subset h)
  obtain ⟨h2, hgt⟩ := List.mem_filter.mp h1
  obtain ⟨f, hf, hfx⟩ := List.mem_map.mp h2
  obtain ⟨hfo, hpred⟩ := List.mem_filter.mp hf
  subst hfx
  simp only [decide_eq_true_eq] at hgt
  cases hemb : f.embedding with
  | none => rw [hemb] at hpred; exact absurd hpred (by simp)
  | some e =>
    rw [hemb] at hgt
    exact ⟨hfo, e, rfl, rfl, lt_of_not_le hgt⟩

theorem mem_heuristicSorted {t : JVal} {others : List RFile} {f : RFile}
    (h : f ∈ heuristicSorted t others) :
    f ∈ others ∧ (3.0 : Rat) ≤ scoreCandidateJ t f.info := by
  unfold heuristicSorted at h
  have h1 := (List.take_sublist _ _).subset h
  obtain ⟨p, hp, hpf⟩ := List.mem_map.mp h1
  have hp2 := (mem_sortByKeyDesc _ _ _).mp hp
  obtain ⟨hps, hge⟩ := List.mem_filter.mp hp2
  obtain ⟨g, hg, hgp⟩ := List.mem_map.mp hps
  subst hgp
  subst hpf
  simp only [decide_eq_true_eq] at hge
  exact ⟨hg, hge⟩

theorem mem_heurArm {t : JVal} {others : List RFile} {r : RecOut}
    (h : r ∈ (heuristicSorted t others).map recOut) :
    ∃ f, f ∈ others ∧ r = recOut f ∧ (3.0 : Rat) ≤ scoreCandidateJ t f.info := by
  obtain ⟨f, hf, hfr⟩ := List.mem_map.mp h
  obtain ⟨hfo, hsc⟩ := mem_heuristicSorted hf
  exact ⟨f, hfo, hfr.symm, hsc⟩

/-- Every member of a recommendFiles result is a candidate (not the target)
that cleared the gate of the pass that produced it: cosine similarity above
0.15 against the stored or regenerated target embedding, or heuristic score
at least 3.0. -/
theorem recommendFiles_mem {sqrt : Rat → Rat} {files : List RFile}
    {target : Option RTarget} {useVec : Bool} {genEmb : Option (List Rat)}
    {r : RecOut} (h : r ∈ recommendFiles sqrt files target useVec genEmb) :
    ∃ tgt, target = some tgt ∧ ∃ f, f ∈ otherFilesOf files target ∧
      r = recOut f ∧
      ((∃ tEmb e, tgt.embedding = some tEmb ∧ f.embedding = some e ∧
          (0.15 : Rat) < cosineSimilarity sqrt tEmb e) ∨
        (∃ g e, genEmb = some g ∧ f.embedding = some e ∧
          (0.15 : Rat) < cosineSimilarity sqrt g e) ∨
        (3.0 : Rat) ≤ scoreCandidateJ tgt.info f.info) := by
  unfold recommendFiles at h
  dsimp only at h
  by_cases h1 : files.length = 0
  · rw [if_pos h1] at h
    exact absurd h (List.not_mem_nil r)
  rw [if_neg h1] at h
  by_cases h2 : (otherFilesOf files target).length = 0
  · rw [if_pos h2] at h
    exact absurd h (List.not_mem_nil r)
  rw [if_neg h2] at h
  cases target with
  | none =>
    dsimp only at h
    exact absurd h (List.not_mem_nil r)
  | some tgt =>
    obtain ⟨tfn, tinfo, temb⟩ := tgt
    dsimp only at h ⊢
    refine ⟨⟨tfn, tinfo, temb⟩, rfl, ?_⟩
    have heur : r ∈ (if (tinfo.truthy && decide
          ((otherFilesOf files (some ⟨tfn, tinfo, temb⟩)).length > 0) : Bool) = true then
            (heuristicSorted tinfo
              (otherFilesOf files (some ⟨tfn, tinfo, temb⟩))).map recOut
          else []) →
        ∃ f, f ∈ otherFilesOf files (some ⟨tfn, tinfo, temb⟩) ∧ r = recOut f ∧
          ((∃ tEmb e, temb = some tEmb ∧ f.embedding = some e ∧
              (0.15 : Rat) < cosineSimilarity sqrt tEmb e) ∨
            (∃ g e, genEmb = some g ∧ f.embedding = some e ∧
              (0.15 : Rat) < cosineSimilarity sqrt g e) ∨
            (3.0 : Rat) ≤ scoreCandidateJ tinfo f.info) := by
      intro hh
      by_cases hc : (tinfo.truthy && decide
          ((otherFilesOf files (some ⟨tfn, tinfo, temb⟩)).length > 0) : Bool) = true
      · rw [if_pos hc] at hh
        obtain ⟨f, hfo, hfr, hsc⟩ := mem_heurArm hh
        exact ⟨f, hfo, hfr, Or.inr (Or.inr hsc)⟩
      · rw [if_neg hc] at hh
        exact absurd hh (List.not_mem_nil r)
    by_cases hg : (tinfo.truthy && useVec) = true
    · rw [if_pos hg] at h
      cases temb with
      | some tEmb =>
        dsimp only at h
        by_cases hlen : tEmb.length > 0
        · rw [if_pos hlen] at h
          by_cases hvs : (vectorScored sqrt tEmb
              (otherFilesOf files (some ⟨tfn, tinfo, some tEmb⟩))).length > 0
          · rw [if_pos hvs] at h
            dsimp only at h
            obtain ⟨item, hitem, hio⟩ := List.mem_map.mp h
            obtain ⟨hmem, e, he, hcos, hgt⟩ := mem_vectorScored hitem
            exact ⟨item.1, hmem, hio.symm,
              Or.inl ⟨tEmb, e, rfl, he, hcos ▸ hgt⟩⟩
          · rw [if_neg hvs] at h
            dsimp only at h
            exact heur h
        · rw [if_neg hlen] at h
          dsimp only at h
          exact heur h
      | none =>
        dsimp only at h
        cases hge : generateEmbeddingText tinfo with
        | error e =>
          rw [hge] at h
          dsimp only at h
          exact heur h
        | ok embeddingText =>
          rw [hge] at h
          dsimp only at h
          by_cases htxt : (decide (embeddingText ≠ "") &&
              decide (embeddingText ≠ "No content available")) = true
          · rw [if_pos htxt] at h
            cases genEmb with
            | some g =>
              dsimp only at h
              by_cases hglen : g.length > 0
              · rw [if_pos hglen] at h
                by_cases hvs : (genScored sqrt g
                    (otherFilesOf files (some ⟨tfn, tinfo, none⟩))).length > 0
                · rw [if_pos hvs] at h
                  dsimp only at h
                  obtain ⟨item, hitem, hio⟩ := List.mem_map.mp h
                  obtain ⟨hmem, e, he, hcos, hgt⟩ := mem_genScored hitem
                  exact ⟨item.1, hmem, hio.symm,
                    Or.inr (Or.inl ⟨g, e, rfl, he, hcos ▸ hgt⟩)⟩
                · rw [if_neg hvs] at h
                  dsimp only at h
                  exact heur h
              · rw [if_neg hglen] at h
                dsimp only at h
                exact heur h
            | none =>
              dsimp only at h
              exact heur h
          · rw [if_neg htxt] at h
            dsimp only at h
            exact heur h
    · rw [if_neg hg] at h
      dsimp only at h
      exact heur h

theorem recommendFiles_length (sqrt : Rat → Rat) (files : List RFile)
    (target : Option RTarget) (useVec : Bool) (genEmb : Option (List Rat)) :
    (recommendFiles sqrt files target useVec genEmb).length ≤ 5 := by
  unfold recommendFiles
  dsimp only
  split
  · simp
  split
  · simp
  split
  · rename_i r1 heq
    repeat' split at heq
    all_goals first
      | exact Option.noConfusion heq
      | (obtain rfl := Option.some.inj heq
         simp only [List.length_map]
         exact List.length_take_le _ _)
  · split
    · simp
    · split
      · simp only [List.length_map]
        unfold heuristicSorted
        exact List.length_take_le _ _
      · simp

/-- Evaluation of the recommender on the example inputs: the heuristic pass
keeps the candidate (its guarded score is 3.5). -/
theorem exRecommend_eq :
    recommendFiles id [exFile] (some exTarget) false none =
      [⟨"b.mp4", exFileInfo⟩] := by
  with_unfolding_all rfl

/-- C8: a recommendFiles result never exceeds five entries and never
contains the target item itself (every returned filename differs from the
target filename). -/
theorem c8_bounds (sqrt : Rat → Rat) (files : List RFile)
    (target : Option RTarget) (useVec : Bool) (genEmb : Option (List Rat)) :
    (recommendFiles sqrt files target useVec genEmb).length ≤ 5 ∧
      ∀ r ∈ recommendFiles sqrt files target useVec genEmb,
        some r.filename ≠ target.bind RTarget.filename := by
  refine ⟨recommendFiles_length sqrt files target useVec genEmb, ?_⟩
  intro r hr
  obtain ⟨tgt, -, f, hf, hrf, -⟩ := recommendFiles_mem hr
  obtain ⟨-, hpred⟩ := List.mem_filter.mp hf
  simp only [decide_eq_true_eq] at hpred
  subst hrf
  exact hpred

/-- Witness for C8 at the example inputs. -/
theorem c8_witness :
    (recommendFiles id [exFile] (some exTarget) false none).length ≤ 5 ∧
      some (RecOut.filename ⟨"b.mp4", exFileInfo⟩) ≠
        (some exTarget).bind RTarget.filename :=
  ⟨(c8_bounds id [exFile] (some exTarget) false none).1,
    (c8_bounds id [exFile] (some exTarget) false none).2 _
      (by rw [exRecommend_eq]; exact List.mem_singleton.mpr rfl)⟩

/-- C1: a member of a recommendFiles result always cleared the gate of the
pass that produced it.  If it was vector-scored against the stored target
embedding or against the regenerated one, its cosine similarity strictly
exceeds 0.15; otherwise its guarded heuristic score is at least 3.0.  A
candidate below the applicable threshold is therefore dropped from the
output rather than clipped to zero and kept. -/
theorem c1_gating {sqrt : Rat → Rat} {files : List RFile}
    {target : Option RTarget} {useVec : Bool} {genEmb : Option (List Rat)}
    {r : RecOut} (h : r ∈ recommendFiles sqrt files target useVec genEmb) :
    ∃ tgt f, target = some tgt ∧ f ∈ files ∧ r = recOut f ∧
      ((∃ tEmb e, tgt.embedding = some tEmb ∧ f.embedding = some e ∧
          (0.15 : Rat) < cosineSimilarity sqrt tEmb e) ∨
        (∃ g e, genEmb = some g ∧ f.embedding = some e ∧
          (0.15 : Rat) < cosineSimilarity sqrt g e) ∨
        (3.0 : Rat) ≤ scoreCandidateJ tgt.info f.info) := by
  obtain ⟨tgt, htgt, f, hf, hrf, hgate⟩ := recommendFiles_mem h
  exact ⟨tgt, f, htgt, (List.mem_filter.mp hf).1, hrf, hgate⟩

/-- Witness for C1 at the example inputs: the single returned candidate is
gated by its heuristic score. -/
theorem c1_witness :
    ∃ tgt f, (some exTarget : Option RTarget) = some tgt ∧ f ∈ [exFile] ∧
      (⟨"b.mp4", exFileInfo⟩ : RecOut) = recOut f ∧
      ((∃ tEmb e, tgt.embedding = some tEmb ∧ f.embedding = some e ∧
          (0.15 : Rat) < cosineSimilarity id tEmb e) ∨
        (∃ g e, (none : Option (List Rat)) = some g ∧ f.embedding = some e ∧
          (0.15 : Rat) < cosineSimilarity id g e) ∨
        (3.0 : Rat) ≤ scoreCandidateJ tgt.info f.info) :=
  c1_gating (by rw [exRecommend_eq]; exact List.mem_singleton.mpr rfl)

/-! Facts about the guarded heuristic scoring (the per-candidate
try/catch). -/

theorem accumUntilFaultAux_eq (l : List (Except Unit Rat)) (acc : Rat) :
    accumUntilFaultAux acc l =
      (l.takeWhile (fun d => d.isOk)).foldl
        (fun a d => a + d.toOption.getD 0) acc := by
  induction l generalizing acc with
  | nil => rfl
  | cons d rest ih =>
    cases d with
    | ok q =>
      rw [show accumUntilFaultAux acc (.ok q :: rest) =
        accumUntilFaultAux (acc + q) rest from rfl]
      rw [ih]
      rfl
    | error e => rfl

/-- C10: the heuristic scoring of each candidate is individually guarded:
the score of every candidate kept by the heuristic pass equals the sum of
the per-statement deltas accumulated strictly before the first faulting
statement (the whole tail after a fault contributes nothing, and no
exception escapes since the pass is a total function), and that partial
score still had to clear the 3.0 threshold. -/
theorem c10_guarded_scoring (t : JVal) (others : List RFile) (f : RFile)
    (h : f ∈ heuristicSorted t others) :
    f ∈ others ∧ (3.0 : Rat) ≤ scoreCandidateJ t f.info ∧
      scoreCandidateJ t f.info =
        ((scoreDeltas t f.info).takeWhile (fun d => d.isOk)).foldl
          (fun a d => a + d.toOption.getD 0) 0 := by
  obtain ⟨hmem, hsc⟩ := mem_heuristicSorted h
  exact ⟨hmem, hsc, accumUntilFaultAux_eq _ _⟩

/-- Witness for C10 at the example inputs: the candidate faults at the
tag-sharing statement (its tags field is a number), keeps the 3.5 points
accumulated before the fault, and is returned by the heuristic pass. -/
theorem c10_witness :
    (exFile ∈ [exFile] ∧
        (3.0 : Rat) ≤ scoreCandidateJ exTargetInfo exFile.info ∧
        scoreCandidateJ exTargetInfo exFile.info =
          ((scoreDeltas exTargetInfo exFile.info).takeWhile
            (fun d => d.isOk)).foldl (fun a d => a + d.toOption.getD 0) 0) ∧
      (scoreDeltas exTargetInfo exFileInfo).any (fun d => !d.isOk) = true ∧
      scoreCandidateJ exTargetInfo exFileInfo = 7 / 2 :=
  ⟨c10_guarded_scoring exTargetInfo [exFile] exFile
      (by rw [show heuristicSorted exTargetInfo [exFile] = [exFile] from
            by with_unfolding_all rfl]
          exact List.mem_singleton.mpr rfl),
    by with_unfolding_all decide, by with_unfolding_all decide⟩

/-- C7 amended: in the database reindex loop, an item whose descriptor
yields the no-content sentinel is reported skipped with reason no_content;
an item whose embedding generation returns nothing usable is reported
failed; an item whose generated vector is stored successfully is reported
updated; but an item whose store write fails is reported error with reason
storage_failed, not updated. -/
theorem c7_amended (gen : String → Option (List Rat))
    (writeOk : String → Bool) (file : RFile) (txt : String)
    (htxt : generateEmbeddingText (JVal.jsOr file.info (.obj [])) = .ok txt) :
    ((txt = "" ∨ txt = "No content available") →
        reindexItem gen writeOk file =
          ⟨file.filename, "skipped", some "no_content"⟩) ∧
      (txt ≠ "" → txt ≠ "No content available" →
        ((gen txt = none ∨ gen txt = some []) →
            reindexItem gen writeOk file =
              ⟨file.filename, "failed", some "embedding_generation_failed"⟩) ∧
          ∀ e, gen txt = some e → e ≠ [] →
            (writeOk file.filename = true →
                reindexItem gen writeOk file =
                  ⟨file.filename, "updated", none⟩) ∧
              (writeOk file.filename = false →
                reindexItem gen writeOk file =
                  ⟨file.filename, "error", some "storage_failed"⟩)) := by
  unfold reindexItem
  dsimp only
  rw [htxt]
  dsimp only
  constructor
  · intro hs
    rw [if_pos (by rcases hs with h | h <;> simp [h])]
  · intro h1 h2
    rw [if_neg (by simp [h1, h2])]
    constructor
    · intro hg
      rcases hg with hg | hg
      · rw [hg]
      · rw [hg]
        dsimp only
        rw [if_pos (by simp)]
    · intro e he hne
      rw [he]
      dsimp only
      rw [if_neg (show ¬ e.length = 0 by simp [hne])]
      unfold storeEmbeddingInDB
      rw [if_neg (show ¬ e.length = 0 by simp [hne])]
      constructor
      · intro hw
        rw [if_pos hw]
      · intro hw
        rw [hw]
        simp

/-- C7 counterexample: an item with real content and a successfully
generated embedding is reported error (reason storage_failed), not
updated, when the store write fails. -/
theorem c7_counterexample :
    reindexItem (fun _ => some [1]) (fun _ => false)
        { filename := "f.txt", info := .obj [("summary", .str "hello")] } =
      ⟨"f.txt", "error", some "storage_failed"⟩ ∧
      generateEmbeddingText
          (JVal.jsOr (.obj [("summary", .str "hello")]) (.obj [])) =
        .ok "hello" ∧
      ¬ (("error" : String) = "updated") := by
  refine ⟨by with_unfolding_all decide, by with_unfolding_all rfl, by decide⟩

/-- Witness for C7 amended: an empty descriptor is reported skipped with
reason no_content. -/
theorem c7_witness :
    reindexItem (fun _ => some [1]) (fun _ => true)
        { filename := "e.txt", info := .obj [] } =
      ⟨"e.txt", "skipped", some "no_content"⟩ :=
  (c7_amended (fun _ => some [1]) (fun _ => true)
      { filename := "e.txt", info := .obj [] } "No content available"
      (by with_unfolding_all rfl)).1 (Or.inr rfl)

/-! String facts used to characterise the no-content sentinel. -/

theorem jsSubstring_eq_empty_iff (s : String) :
    jsSubstring s 8000 = "" ↔ s = "" := by
  constructor
  · intro h
    have hd : s.data.take 8000 = [] := congrArg String.data h
    rcases List.take_eq_nil_iff.mp hd with h8 | hnil
    · exact absurd h8 (by norm_num)
    · exact String.ext hnil
  · intro h
    subst h
    rfl

theorem append_ne_empty_left (a b : String) (h : a ≠ "") : a ++ b ≠ "" := by
  intro hab
  apply h
  have hlen := congrArg String.length hab
  rw [String.length_append] at hlen
  have h0 : ("" : String).length = 0 := rfl
  rw [h0] at hlen
  have ha : a.length = 0 := by omega
  exact String.ext (List.length_eq_zero.mp ha)

theorem jsJoinSp_eq_empty (l : List String) (hl : ∀ s ∈ l, s ≠ "") :
    jsJoinSp l = "" ↔ l = [] := by
  cases l with
  | nil => simp [jsJoinSp]
  | cons x xs =>
    have hx : x ≠ "" := hl x (List.mem_cons_self _ _)
    have hne : jsJoinSp (x :: xs) ≠ "" := by
      cases xs with
      | nil => exact hx
      | cons y ys => exact append_ne_empty_left _ _ (append_ne_empty_left _ _ hx)
    simp [hne]

theorem strMapFilter (l : List String) :
    ((l.map JVal.str).filter JVal.truthy).map jElemStr =
      l.filter (fun s => s ≠ "") := by
  induction l with
  | nil => rfl
  | cons x xs ih =>
    simp only [List.map_cons, List.filter_cons, JVal.truthy]
    by_cases hx : x = ""
    · subst hx
      simpa using ih
    · simp [jElemStr, ih, hx, decide_not]

theorem partStrEval (o : Option String) :
    ((if (optJ o).truthy = true then [optJ o] else []).filter
      JVal.truthy).map jElemStr = optStrPart o := by
  cases o with
  | none => rfl
  | some s =>
    by_cases hs : s = ""
    · subst hs
      rfl
    · simp [optJ, optStrPart, JVal.truthy, jElemStr, hs]

theorem partListEval (o : Option (List String)) :
    ((if ((optJL o).truthy && (optJL o).isArr) = true then (optJL o).elems
      else []).filter JVal.truthy).map jElemStr = optListPart o := by
  cases o with
  | none => rfl
  | some l =>
    rw [if_pos (show ((optJL (some l)).truthy && (optJL (some l)).isArr) = true
      from rfl)]
    exact strMapFilter l

theorem singletonStrPart (s : String) (h : s ≠ "") :
    ([JVal.str s].filter JVal.truthy).map jElemStr = [s] := by
  simp [JVal.truthy, jElemStr, h]

theorem mapElemStr (cs : List String) : (cs.map JVal.str).map jElemStr = cs := by
  induction cs with
  | nil => rfl
  | cons x xs ih => simp [jElemStr, ih]

set_option maxHeartbeats 1000000 in
theorem gen_toJ (it : CItem) :
    generateEmbeddingText it.toJ =
      .ok (if cItemText it = "" then "No content available" else cItemText it) := by
  obtain ⟨ty, sm, hl, tg, ob, cp, sc, co, st⟩ := it
  rw [show CItem.toJ ⟨ty, sm, hl, tg, ob, cp, sc, co, st⟩ = JVal.obj
    [("type", optJ ty), ("summary", optJ sm), ("highlights", optJL hl),
     ("tags", optJL tg), ("objects", optJL ob), ("caption", optJ cp),
     ("scene", optJ sc), ("columns", optJL co), ("stats", optJStats st)] from rfl]
  unfold generateEmbeddingText
  simp only [JVal.get, List.find?, String.reduceBEq]
  simp only [cItemText, cItemParts]
  rcases ty with _ | t
  · rw [if_neg (show ¬ ((optJ none).strictEq (JVal.str "csv") &&
      (optJL co).truthy) = true by simp [optJ, JVal.strictEq])]
    dsimp only [Bind.bind, Except.bind, Pure.pure, Except.pure]
    rw [if_neg (show ¬ ((optJ none).strictEq (JVal.str "csv") &&
      (optJStats st).truthy) = true by simp [optJ, JVal.strictEq])]
    rw [if_neg (show ¬ (optJ none).truthy = true by simp [optJ, JVal.truthy])]
    simp only [List.filter_append, List.map_append, List.filter_nil,
      List.map_nil, partStrEval, partListEval]
    rfl
  · by_cases hcsv : t = "csv"
    · subst hcsv
      have h9 := singletonStrPart ("File type: " ++ "csv")
        (append_ne_empty_left _ _ (by decide))
      rcases co with _ | cs
      · rw [if_neg (show ¬ ((optJ (some "csv")).strictEq (JVal.str "csv") &&
          (optJL none).truthy) = true by simp [optJ, optJL, JVal.truthy])]
        dsimp only [Bind.bind, Except.bind, Pure.pure, Except.pure]
        rw [show jToStr (optJ (some "csv")) = "csv" from rfl]
        rw [if_pos (show (optJ (some "csv")).truthy = true from rfl)]
        rcases st with _ | kvs
        · rw [if_neg (show ¬ ((optJ (some "csv")).strictEq (JVal.str "csv") &&
            (optJStats none).truthy) = true by
              simp [optJ, optJStats, JVal.strictEq, JVal.truthy])]
          simp only [List.filter_append, List.map_append, List.filter_nil,
            List.map_nil, partStrEval, partListEval, h9]
          simp [csvColsPart, csvStatsPart, typePart]
        · have h8 := singletonStrPart
            ("Statistics: " ++ jsonStringify (optJStats (some kvs)))
            (append_ne_empty_left _ _ (by decide))
          rw [if_pos (show ((optJ (some "csv")).strictEq (JVal.str "csv") &&
            (optJStats (some kvs)).truthy) = true from rfl)]
          simp only [List.filter_append, List.map_append, List.filter_nil,
            List.map_nil, partStrEval, partListEval, h8, h9]
          simp [csvColsPart, csvStatsPart, typePart]
      · rw [if_pos (show ((optJ (some "csv")).strictEq (JVal.str "csv") &&
          (optJL (some cs)).truthy) = true from rfl)]
        rw [show jsJoinE (optJL (some cs)) ", " =
          Except.ok (String.intercalate ", " ((cs.map JVal.str).map jElemStr))
          from rfl]
        dsimp only [Bind.bind, Except.bind, Pure.pure, Except.pure]
        rw [mapElemStr]
        have h7 := singletonStrPart ("Columns: " ++ String.intercalate ", " cs)
          (append_ne_empty_left _ _ (by decide))
        rw [show jToStr (optJ (some "csv")) = "csv" from rfl]
        rw [if_pos (show (optJ (some "csv")).truthy = true from rfl)]
        rcases st with _ | kvs
        · rw [if_neg (show ¬ ((optJ (some "csv")).strictEq (JVal.str "csv") &&
            (optJStats none).truthy) = true by
              simp [optJ, optJStats, JVal.strictEq, JVal.truthy])]
          simp only [List.filter_append, List.map_append, List.filter_nil,
            List.map_nil, partStrEval, partListEval, h7, h9]
          simp [csvColsPart, csvStatsPart, typePart]
        · have h8 := singletonStrPart
            ("Statistics: " ++ jsonStringify (optJStats (some kvs)))
            (append_ne_empty_left _ _ (by decide))
          rw [if_pos (show ((optJ (some "csv")).strictEq (JVal.str "csv") &&
            (optJStats (some kvs)).truthy) = true from rfl)]
          simp only [List.filter_append, List.map_append, List.filter_nil,
            List.map_nil, partStrEval, partListEval, h7, h8, h9]
          simp [csvColsPart, csvStatsPart, typePart]
    · rw [if_neg (show ¬ ((optJ (some t)).strictEq (JVal.str "csv") &&
        (optJL co).truthy) = true by simp [optJ, JVal.strictEq, hcsv])]
      dsimp only [Bind.bind, Except.bind, Pure.pure, Except.pure]
      rw [if_neg (show ¬ ((optJ (some t)).strictEq (JVal.str "csv") &&
        (optJStats st).truthy) = true by simp [optJ, JVal.strictEq, hcsv])]
      by_cases ht : t = ""
      · subst ht
        rw [if_neg (show ¬ (optJ (some "")).truthy = true by
          simp [optJ, JVal.truthy])]
        rcases co with _ | cs <;> rcases st with _ | kvs <;>
          · simp only [List.filter_append, List.map_append, List.filter_nil,
              List.map_nil, partStrEval, partListEval]
            simp [csvColsPart, csvStatsPart, typePart]
      · rw [show jToStr (optJ (some t)) = t from rfl]
        have h9 := singletonStrPart ("File type: " ++ t)
          (append_ne_empty_left _ _ (by decide))
        rw [if_pos (show (optJ (some t)).truthy = true by
          simp [optJ, JVal.truthy, ht])]
        rcases co with _ | cs <;> rcases st with _ | kvs <;>
          · simp only [List.filter_append, List.map_append, List.filter_nil,
              List.map_nil, partStrEval, partListEval, h9]
            simp [csvColsPart, csvStatsPart, typePart, hcsv, ht]

theorem mem_optStrPart {o : Option String} {s : String}
    (h : s ∈ optStrPart o) : s ≠ "" := by
  rcases o with _ | v
  · simp [optStrPart] at h
  · by_cases hv : v = "" <;> simp [optStrPart, hv] at h
    subst h
    exact hv

theorem mem_optListPart {o : Option (List String)} {s : String}
    (h : s ∈ optListPart o) : s ≠ "" := by
  rcases o with _ | l
  · simp [optListPart] at h
  · have := (List.mem_filter.mp h).2
    simpa using this

theorem mem_csvColsPart {ty : Option String} {co : Option (List String)}
    {s : String} (h : s ∈ csvColsPart ty co) : s ≠ "" := by
  rcases ty with _ | t <;> rcases co with _ | cs <;> simp [csvColsPart] at h
  rcases h with ⟨-, rfl⟩
  exact append_ne_empty_left _ _ (by decide)

theorem mem_csvStatsPart {ty : Option String}
    {st : Option (List (String × Rat))} {s : String}
    (h : s ∈ csvStatsPart ty st) : s ≠ "" := by
  rcases ty with _ | t <;> rcases st with _ | kvs <;> simp [csvStatsPart] at h
  rcases h with ⟨-, rfl⟩
  exact append_ne_empty_left _ _ (by decide)

theorem mem_typePart {ty : Option String} {s : String}
    (h : s ∈ typePart ty) : s ≠ "" := by
  rcases ty with _ | t
  · simp [typePart] at h
  · by_cases ht : t = "" <;> simp [typePart, ht] at h
    subst h
    exact append_ne_empty_left _ _ (by decide)

theorem cItemParts_ne_empty (it : CItem) : ∀ s ∈ cItemParts it, s ≠ "" := by
  intro s hs
  simp only [cItemParts, List.mem_append] at hs
  rcases hs with ((((((((h | h) | h) | h) | h) | h) | h) | h) | h)
  · exact mem_optStrPart h
  · exact mem_optListPart h
  · exact mem_optListPart h
  · exact mem_optListPart h
  · exact mem_optStrPart h
  · exact mem_optStrPart h
  · exact mem_csvColsPart h
  · exact mem_csvStatsPart h
  · exact mem_typePart h

theorem optStrPart_eq_nil (o : Option String) :
    optStrPart o = [] ↔ (o = none ∨ o = some "") := by
  rcases o with _ | v
  · simp [optStrPart]
  · by_cases hv : v = "" <;> simp [optStrPart, hv]

theorem optListPart_eq_nil (o : Option (List String)) :
    optListPart o = [] ↔ ∀ s ∈ o.getD [], s = "" := by
  rcases o with _ | l <;> simp [optListPart, List.filter_eq_nil]

theorem typePart_eq_nil (ty : Option String) :
    typePart ty = [] ↔ (ty = none ∨ ty = some "") := by
  rcases ty with _ | t
  · simp [typePart]
  · by_cases ht : t = "" <;> simp [typePart, ht]

theorem csvColsPart_nil_of {ty : Option String} (co : Option (List String))
    (h : ty = none ∨ ty = some "") : csvColsPart ty co = [] := by
  rcases h with rfl | rfl <;> rcases co with _ | cs <;> simp [csvColsPart]

theorem csvStatsPart_nil_of {ty : Option String}
    (st : Option (List (String × Rat))) (h : ty = none ∨ ty = some "") :
    csvStatsPart ty st = [] := by
  rcases h with rfl | rfl <;> rcases st with _ | kvs <;> simp [csvStatsPart]

theorem cItemText_empty_iff (it : CItem) :
    cItemText it = "" ↔
      ((it.type = none ∨ it.type = some "") ∧
        (it.summary = none ∨ it.summary = some "") ∧
        (it.caption = none ∨ it.caption = some "") ∧
        (it.scene = none ∨ it.scene = some "") ∧
        (∀ s ∈ it.highlights.getD [], s = "") ∧
        (∀ s ∈ it.tags.getD [], s = "") ∧
        (∀ s ∈ it.objects.getD [], s = "")) := by
  rw [show cItemText it = jsSubstring (jsJoinSp (cItemParts it)) 8000 from rfl,
    jsSubstring_eq_empty_iff, jsJoinSp_eq_empty _ (cItemParts_ne_empty it)]
  obtain ⟨ty, sm, hl, tg, ob, cp, sc, co, st⟩ := it
  simp only [cItemParts, List.append_eq_nil]
  constructor
  · rintro ⟨⟨⟨⟨⟨⟨⟨⟨h1, h2⟩, h3⟩, h4⟩, h5⟩, h6⟩, h7⟩, h8⟩, h9⟩
    exact ⟨(typePart_eq_nil _).mp h9, (optStrPart_eq_nil _).mp h1,
      (optStrPart_eq_nil _).mp h5, (optStrPart_eq_nil _).mp h6,
      (optListPart_eq_nil _).mp h2, (optListPart_eq_nil _).mp h3,
      (optListPart_eq_nil _).mp h4⟩
  · rintro ⟨hty, hsm, hcp, hsc, hhl, htg, hob⟩
    exact ⟨⟨⟨⟨⟨⟨⟨⟨(optStrPart_eq_nil _).mpr hsm, (optListPart_eq_nil _).mpr hhl⟩,
      (optListPart_eq_nil _).mpr htg⟩, (optListPart_eq_nil _).mpr hob⟩,
      (optStrPart_eq_nil _).mpr hcp⟩, (optStrPart_eq_nil _).mpr hsc⟩,
      csvColsPart_nil_of co hty⟩, csvStatsPart_nil_of st hty⟩,
      (typePart_eq_nil _).mpr hty⟩

/-- C3 counterexample: an item carrying only a type tag, with every
optional descriptor field absent, yields the text File type: pdf rather
than the no-content sentinel. -/
theorem c3_counterexample :
    generateEmbeddingText (CItem.toJ { type := some "pdf" }) =
        .ok "File type: pdf" ∧
      ¬ (("File type: pdf" : String) = "No content available") ∧
      ({ type := some "pdf" } : CItem).summary = none ∧
      ({ type := some "pdf" } : CItem).highlights = none ∧
      ({ type := some "pdf" } : CItem).tags = none ∧
      ({ type := some "pdf" } : CItem).objects = none ∧
      ({ type := some "pdf" } : CItem).caption = none ∧
      ({ type := some "pdf" } : CItem).scene = none ∧
      ({ type := some "pdf" } : CItem).columns = none ∧
      ({ type := some "pdf" } : CItem).stats = none := by
  refine ⟨by with_unfolding_all rfl, by decide, rfl, rfl, rfl, rfl, rfl, rfl,
    rfl, rfl⟩

/-- C3 amended: for a well-shaped item whose concatenated field text is not
literally the sentinel string, buildText returns the sentinel exactly when
every text-bearing descriptor field yields no text AND the type tag itself
is absent or empty (with an empty type tag the columns and statistics
fields can never contribute).  The bare type tag alone already defeats the
sentinel, which is why the original field list was insufficient. -/
theorem c3_amended (it : CItem) (hnp : cItemText it ≠ "No content available") :
    generateEmbeddingText it.toJ = .ok "No content available" ↔
      ((it.type = none ∨ it.type = some "") ∧
        (it.summary = none ∨ it.summary = some "") ∧
        (it.caption = none ∨ it.caption = some "") ∧
        (it.scene = none ∨ it.scene = some "") ∧
        (∀ s ∈ it.highlights.getD [], s = "") ∧
        (∀ s ∈ it.tags.getD [], s = "") ∧
        (∀ s ∈ it.objects.getD [], s = "")) := by
  rw [gen_toJ]
  by_cases he : cItemText it = ""
  · rw [if_pos he]
    constructor
    · intro _
      exact (cItemText_empty_iff it).mp he
    · intro _
      rfl
  · rw [if_neg he]
    constructor
    · intro hok
      exact absurd (Except.ok.inj hok) hnp
    · intro hcond
      exact absurd ((cItemText_empty_iff it).mpr hcond) he

/-- Witness for C3 amended at the fully empty item. -/
theorem c3_witness :
    cItemText {} ≠ "No content available" ∧
      generateEmbeddingText (CItem.toJ {}) = .ok "No content available" := by
  have h : cItemText {} ≠ "No content available" := by
    with_unfolding_all decide
  exact ⟨h, (c3_amended {} h).mpr
    ⟨Or.inl rfl, Or.inl rfl, Or.inl rfl, Or.inl rfl, by simp, by simp, by simp⟩⟩
